import Mathlib

/-!
The INSERT statement builder of queryx (`insert.go`).

A shallow embedding of `InsertBuilder` and its methods, followed by theorems
about what the builder stores and what `Build` writes to the buffer.

Conventions of the embedding:

* Go's `interface{}` values are terms of `GoValue`; slices are `List`s
  (a nil slice and an empty slice are both `[]`, as `len` cannot tell them
  apart); slice aliasing is not modelled.
* A structure field or a pointer target whose static type is an interface type
  is written `GoValue.iface held`, so that `reflect` sees the kind Interface
  there and not the kind of the value held.
* The `Buffer` interface is modelled by the log of the calls made on it, so
  that both the text written and the bind values registered, and their
  interleaving, can be read back.
* Methods that mutate the receiver and return it take the builder and return
  the new builder.
-/

set_option autoImplicit false

namespace Queryx

/-! ## Go values and the part of `reflect` that `Record` uses -/

/-- Static description of one field of a Go structure type. -/
structure StructField where
  /-- Go name of the field. -/
  Name : String
  /-- Content of the field's name tag (empty when there is none). -/
  Tag : String
  /-- Package path, empty exactly for exported fields. -/
  PkgPath : String
  /-- Whether the field is embedded. -/
  Anonymous : Bool
  deriving DecidableEq, Repr

/-- Go values. `nil` is the nil interface; `ptr elem` is a pointer to the
variable `elem` (`none` for a nil pointer); `struct fields` is a structure with
its fields in declared order; `iface held` is the content of a variable whose
static type is an interface type (a structure field such as `Id interface{}`,
or the target of a pointer to an interface), holding the value `held`, `nil`
when the interface is nil. -/
inductive GoValue where
  | nil
  | bool (b : Bool)
  | int (n : Int)
  | str (s : String)
  | ptr (elem : Option GoValue)
  | struct (fields : List (StructField × GoValue))
  | iface (held : GoValue)

/-- The kinds of `reflect.Kind` that the embedding distinguishes. -/
inductive Kind where
  | Invalid | Bool | Int | String | Interface | Ptr | Struct
  deriving DecidableEq, Repr

/-- A `reflect.Value`: `none` is the zero (invalid) Value. -/
abbrev ReflectValue := Option GoValue

/-- Model of `reflect.ValueOf`: the nil interface gives the zero Value. The
argument is an `interface{}`, so a variable of interface type is passed as the
value it holds. -/
def reflectValueOf : GoValue → ReflectValue
  | .nil => none
  | .iface held => reflectValueOf held
  | v => some v

/-- Model of `reflect.Value.Kind`. -/
def ReflectValue.Kind : ReflectValue → Kind
  | none => .Invalid
  | some .nil => .Interface
  | some (.bool _) => .Bool
  | some (.int _) => .Int
  | some (.str _) => .String
  | some (.ptr _) => .Ptr
  | some (.struct _) => .Struct
  | some (.iface _) => .Interface

/-- Model of `reflect.Indirect`: a pointer is dereferenced once (a nil pointer
gives the zero Value), any other Value is returned as it is. -/
def reflectIndirect : ReflectValue → ReflectValue
  | some (.ptr elem) => elem
  | v => v

mutual
/-- Model of `reflect.Value.IsZero` on a valid Value; a Value of kind
Interface is zero exactly when the interface is nil, whatever it holds. -/
def GoValue.IsZero : GoValue → Bool
  | .nil => true
  | .bool b => !b
  | .int n => n == 0
  | .str s => s == ""
  | .ptr elem => elem.isNone
  | .struct fields => GoValue.allZero fields
  | .iface held =>
    match held with
    | .nil => true
    | _ => false
/-- All fields of a structure are zero. -/
def GoValue.allZero : List (StructField × GoValue) → Bool
  | [] => true
  | (_, v) :: rest => v.IsZero && GoValue.allZero rest
end

/-- Model of `reflect.Value.Interface`: the value as an `interface{}`; for a
Value of kind Interface this is the value held. -/
def GoValue.Interface : GoValue → GoValue
  | .iface held => held
  | v => v

/-! ## Errors, the buffer and the rest of the package -/

/-- Modelled from the spec: the package's `error` values. The variables
`ErrTableNotSpecified` and `ErrColumnNotSpecified` are declared outside
`insert.go`; the spec calls them the "table not specified" and the "column not
specified" error, one distinct error for each missing piece. Any other error
(one that raw rendering could return) is `other`. A Go `error` result is an
`Option Error`, `none` being `nil`. -/
inductive Error where
  | ErrTableNotSpecified
  | ErrColumnNotSpecified
  | other (msg : String)
  deriving DecidableEq, Repr

/-- One call made on a `Buffer`. -/
inductive BufCall where
  | WriteString (s : String)
  | WriteValue (v : List GoValue)

/-- The `Buffer` interface, modelled by the log of the calls made on it,
oldest first. -/
structure Buffer where
  log : List BufCall

/-- Method `Buffer.WriteString`. -/
def Buffer.WriteString (buf : Buffer) (s : String) : Buffer :=
  ⟨buf.log ++ [BufCall.WriteString s]⟩

/-- Method `Buffer.WriteValue`. -/
def Buffer.WriteValue (buf : Buffer) (v : List GoValue) : Buffer :=
  ⟨buf.log ++ [BufCall.WriteValue v]⟩

/-- Text of a call log: the arguments of its `WriteString` calls, concatenated
in call order. -/
def textOf : List BufCall → String
  | [] => ""
  | BufCall.WriteString s :: rest => s ++ textOf rest
  | BufCall.WriteValue _ :: rest => textOf rest

/-- Bind values of a call log: the arguments of its `WriteValue` calls,
concatenated in call order. -/
def valuesOf : List BufCall → List GoValue
  | [] => []
  | BufCall.WriteString _ :: rest => valuesOf rest
  | BufCall.WriteValue v :: rest => v ++ valuesOf rest

/-- The arguments of the `WriteValue` calls of a log, one entry per call. -/
def valueCallsOf : List BufCall → List (List GoValue)
  | [] => []
  | BufCall.WriteString _ :: rest => valueCallsOf rest
  | BufCall.WriteValue v :: rest => v :: valueCallsOf rest

/-- All text written to the buffer so far. -/
def Buffer.text (buf : Buffer) : String := textOf buf.log

/-- All bind values registered with the buffer so far. -/
def Buffer.binds (buf : Buffer) : List GoValue := valuesOf buf.log

/-- Modelled from the spec: the constant `placeholder`, declared outside
`insert.go`; the spec renders a placeholder group as `(?,?,...)`. -/
def placeholder : String := "?"

/-- The statement runner held by a builder. It is an external collaborator
that `insert.go` only stores and passes on, identified here by a handle. -/
structure runner where
  handle : Nat
  deriving DecidableEq, Repr

/-- The embedded `raw` structure: literal query text and its values. -/
structure raw where
  Query : String
  Value : List GoValue

/-- The `InsertBuilder` structure. -/
structure InsertBuilder where
  runner : runner
  raw : raw
  Table : String
  Column : List String
  Value : List (List GoValue)
  ReturnColumn : List String
  Ignored : Bool

/-- What `insert.go` calls in the rest of the package when rendering:
the function `QuoteIdent` and the method `raw.Build`, whose bodies are outside
`insert.go` and are taken as parameters. -/
structure Env where
  QuoteIdent : String → String
  rawBuild : raw → Buffer → Buffer × Option Error

/-- Modelled from the spec: `raw.Build`, whose body is outside `insert.go`;
raw rendering is to "write query text, register bind values" and return. -/
def raw.Build (r : raw) (buf : Buffer) : Buffer × Option Error :=
  ((buf.WriteString r.Query).WriteValue r.Value, none)

/-- The tag store used by `Record` (`newTagStore()`), whose methods are outside
`insert.go` and are taken as parameters. `get` receives the structure type
(its fields) and returns one name per field; `findValueByName` receives the
value, the wanted names, the `ret` slice and `retPtr`, and returns `ret` after
its in-place updates (an entry is `none` while it is nil). -/
structure tagStore where
  get : List StructField → List String
  findValueByName : GoValue → List String → List (Option GoValue) → Bool → List (Option GoValue)

/-- Value of the first field whose name in `tags` is `want`; fields without a
name are skipped. -/
def lookupField (want : String) : List String → List (StructField × GoValue) → Option GoValue
  | tag :: tags, (_, v) :: vfields =>
    if tag ≠ "" ∧ tag = want then some v else lookupField want tags vfields
  | _, _ => none

/-- Modelled from the spec: the tag store returned by `newTagStore()`, whose
code is outside `insert.go`. `get` gives each field's configured name tag, and
the empty name for a field that is not exported (such a field is excluded);
`findValueByName` extracts the field value for each wanted name, by name: an
entry of `ret` that is still nil receives the value of the field of that name,
and stays nil when the structure has no such field. -/
def newTagStore : tagStore where
  get := fun fields => fields.map (fun f => if f.PkgPath = "" then f.Tag else "")
  findValueByName := fun v name ret _ =>
    match v with
    | .struct vfields =>
      let tags := (vfields.map Prod.fst).map (fun f => if f.PkgPath = "" then f.Tag else "")
      ret.enum.map (fun p =>
        match p.2 with
        | some x => some x
        | none =>
          match name[p.1]? with
          | some want => lookupField want tags vfields
          | none => none)
    | _ => ret

/-- Result of a call that can panic: the builder as the call left it, and the
panic value if there was one. -/
inductive Outcome where
  | ok (b : InsertBuilder)
  | panic (msg : String) (b : InsertBuilder)

/-! ## The builder's methods -/

/-- Function `InsertInto`. -/
def InsertInto (db : runner) (table : String) : InsertBuilder :=
  { runner := db, raw := ⟨"", []⟩, Table := table, Column := [], Value := [],
    ReturnColumn := [], Ignored := false }

/-- Function `InsertSql`. -/
def InsertSql (db : runner) (query : String) (value : List GoValue) : InsertBuilder :=
  { runner := db, raw := ⟨query, value⟩, Table := "", Column := [], Value := [],
    ReturnColumn := [], Ignored := false }

/-- Method `Columns`. -/
def Columns (b : InsertBuilder) (columns : List String) : InsertBuilder :=
  { b with Column := columns }

/-- Method `Values`. -/
def Values (b : InsertBuilder) (values : List GoValue) : InsertBuilder :=
  { b with Value := b.Value ++ [values] }

/-- Method `Pair`: the column is appended first, then the switch on the number
of tuples runs. -/
def Pair (b : InsertBuilder) (column : String) (value : GoValue) : Outcome :=
  let b := { b with Column := b.Column ++ [column] }
  match b.Value with
  | [] => .ok (Values b [value])
  | [t] => .ok { b with Value := [t ++ [value]] }
  | _ => .panic "pair only allows one record to insert" b

/-- Method `Returning`. -/
def Returning (b : InsertBuilder) (columns : List String) : InsertBuilder :=
  { b with ReturnColumn := columns }

/-- Method `Ignore`. -/
def Ignore (b : InsertBuilder) : InsertBuilder :=
  { b with Ignored := true }

/-- The loop of `Record` over `fields := s.get(v.Type())`, at index `i` with
column list `cols`. `Except.error` is the panic of `v.Field(i)` on an index
that the structure does not have, with the column list as it was then. -/
def recordColumns (vfields : List (StructField × GoValue)) :
    Nat → List String → List String → Except (List String) (List String)
  | _, [], cols => .ok cols
  | i, field :: rest, cols =>
    if field = "id" then
      match vfields[i]? with
      | none => .error cols
      | some idField =>
        if idField.2.IsZero then recordColumns vfields (i + 1) rest cols
        else if field ≠ "" then recordColumns vfields (i + 1) rest (cols ++ [field])
        else recordColumns vfields (i + 1) rest cols
    else if field ≠ "" then recordColumns vfields (i + 1) rest (cols ++ [field])
    else recordColumns vfields (i + 1) rest cols

/-- The conversion loop of `Record` over `value`: a non-nil entry is replaced
by the `Interface()` of the `reflect.Value` it holds. -/
def recordInterface : List (Option GoValue) → List GoValue
  | [] => []
  | none :: rest => GoValue.nil :: recordInterface rest
  | some v :: rest => v.Interface :: recordInterface rest

/-- Method `Record`. -/
def Record (s : tagStore) (b : InsertBuilder) (record : GoValue) : Outcome :=
  let v := reflectIndirect (reflectValueOf record)
  match v with
  | some (.struct vfields) =>
    let cols : Except (List String) (List String) :=
      if b.Column.length = 0 then
        recordColumns vfields 0 (s.get (vfields.map Prod.fst)) b.Column
      else .ok b.Column
    match cols with
    | .error cols => .panic "reflect: Field index out of range" { b with Column := cols }
    | .ok cols =>
      let b := { b with Column := cols }
      let found : List (Option GoValue) := List.replicate (b.Column.length + 1) none
      let found := s.findValueByName (.struct vfields) (b.Column ++ ["id"]) found false
      let value := found.take (found.length - 1)
      .ok (Values b (recordInterface value))
  | _ => .ok b

/-- The loop of `Build` over `b.Column`, at index `i`, carrying the buffer and
the placeholder builder. -/
def columnLoop (env : Env) : Nat → List String → Buffer × String → Buffer × String
  | _, [], st => st
  | i, col :: rest, (buf, placeholderBuf) =>
    let st : Buffer × String :=
      if i > 0 then (buf.WriteString ",", placeholderBuf ++ ",") else (buf, placeholderBuf)
    columnLoop env (i + 1) rest ((st.1).WriteString (env.QuoteIdent col), st.2 ++ placeholder)

/-- The loop of `Build` over `b.Value`, at index `i`. -/
def valueLoop (placeholderStr : String) : Nat → List (List GoValue) → Buffer → Buffer
  | _, [], buf => buf
  | i, tuple :: rest, buf =>
    let buf := if i > 0 then buf.WriteString ", " else buf
    let buf := buf.WriteString placeholderStr
    valueLoop placeholderStr (i + 1) rest (buf.WriteValue tuple)

/-- The loop of `Build` over `b.ReturnColumn`, at index `i`. -/
def returnLoop (env : Env) : Nat → List String → Buffer → Buffer
  | _, [], buf => buf
  | i, col :: rest, buf =>
    let buf := if i > 0 then buf.WriteString "," else buf
    returnLoop env (i + 1) rest (buf.WriteString (env.QuoteIdent col))

/-- Method `Build`: the buffer after the call and the error returned. -/
def Build (env : Env) (b : InsertBuilder) (buf : Buffer) : Buffer × Option Error :=
  if b.raw.Query ≠ "" then env.rawBuild b.raw buf
  else if b.Table = "" then (buf, some Error.ErrTableNotSpecified)
  else if b.Column.length = 0 then (buf, some Error.ErrColumnNotSpecified)
  else
    let buf := if b.Ignored then buf.WriteString "INSERT IGNORE INTO "
      else buf.WriteString "INSERT INTO "
    let buf := buf.WriteString (env.QuoteIdent b.Table)
    let placeholderBuf := "" ++ "("
    let buf := buf.WriteString " ("
    let st := columnLoop env 0 b.Column (buf, placeholderBuf)
    let buf := (st.1).WriteString ")"
    let buf := buf.WriteString " VALUES "
    let placeholderStr := st.2 ++ ")"
    let buf := valueLoop placeholderStr 0 b.Value buf
    let buf :=
      if b.ReturnColumn.length > 0 then
        returnLoop env 0 b.ReturnColumn (buf.WriteString " RETURNING ")
      else buf
    (buf, none)

/-- The calls of a loop that writes `sep` before every element but the one at
index 0 and then makes the calls `g a` for the element `a`, started at index
`i`. -/
def sepCalls {α : Type} (sep : String) (g : α → List BufCall) (i : Nat) (l : List α) :
    List BufCall :=
  (l.enumFrom i).flatMap (fun p => (if p.1 > 0 then [BufCall.WriteString sep] else []) ++ g p.2)

/-- The placeholder group for `n` columns: `n` placeholders separated by
commas, in parentheses. -/
def placeholderGroup (n : Nat) : String :=
  "(" ++ String.intercalate "," (List.replicate n "?") ++ ")"

/-- The calls `Build` makes before the value tuples: the statement prefix, the
quoted table and the quoted column list. -/
def headerCalls (env : Env) (b : InsertBuilder) : List BufCall :=
  [BufCall.WriteString (if b.Ignored then "INSERT IGNORE INTO " else "INSERT INTO "),
    BufCall.WriteString (env.QuoteIdent b.Table), BufCall.WriteString " ("]
  ++ sepCalls "," (fun col => [BufCall.WriteString (env.QuoteIdent col)]) 0 b.Column
  ++ [BufCall.WriteString ")", BufCall.WriteString " VALUES "]

/-- The calls `Build` makes for the value tuples, for `n` columns: for each
tuple its placeholder group and then its values, with `, ` written before
every tuple but the first. -/
def tupleCalls (n : Nat) (tuples : List (List GoValue)) : List BufCall :=
  sepCalls ", " (fun tuple => [BufCall.WriteString (placeholderGroup n), BufCall.WriteValue tuple])
    0 tuples

/-- The calls `Build` makes for the return columns. -/
def returningCalls (env : Env) (cols : List String) : List BufCall :=
  if cols.length > 0 then
    BufCall.WriteString " RETURNING "
      :: sepCalls "," (fun col => [BufCall.WriteString (env.QuoteIdent col)]) 0 cols
  else []

/-- An environment for examples: identifiers are wrapped in double quotes and
raw rendering is `raw.Build`. -/
def exampleEnv : Env :=
  { QuoteIdent := fun s => "\"" ++ s ++ "\"", rawBuild := raw.Build }

/-- The example builder of the spec: table `users`, columns `name` and `age`,
one tuple `["Alice", 30]`. -/
def usersBuilder : InsertBuilder :=
  Values (Columns (InsertInto ⟨0⟩ "users") ["name", "age"]) [GoValue.str "Alice", GoValue.int 30]

/-! ## Execution -/

/-- The execution context (`context.Context`), which `insert.go` only passes
on. -/
structure Context where
  id : Nat

/-- The result that `exec` returns, of which `Exec` reads `RowsAffected()`. -/
structure Result where
  RowsAffected : Int

/-- One submission to the statement runner: an execution, or a query whose
result is scanned into the destination `dest`. -/
inductive RunnerCall where
  | ExecContext (ctx : Context) (r : runner) (query : String) (args : List GoValue)
  | QueryScan (ctx : Context) (r : runner) (query : String) (args : List GoValue)
      (dest : GoValue)

/-- The statement runner, an external collaborator: what it answers to a
submission. The answer may depend on the submissions made before (`history`,
oldest first), so that a second submission of the same statement can be told
from the first. -/
structure Driver where
  ExecContext : List RunnerCall → Context → runner → String → List GoValue →
    Result × Option Error
  QueryScan : List RunnerCall → Context → runner → String → List GoValue → GoValue →
    Int × Option Error

/-- The package functions `exec` and `query`, whose bodies are outside
`insert.go` and are taken as parameters. Each receives the submissions made to
the runner so far and returns the submissions after the call, a value and an
`error` (`none` being `nil`). -/
structure Runtime where
  exec : Context → runner → InsertBuilder → List RunnerCall →
    List RunnerCall × Result × Option Error
  query : Context → runner → InsertBuilder → GoValue → List RunnerCall →
    List RunnerCall × Int × Option Error

/-- Method `Exec`, with the submissions made to the runner before and after
the call. -/
def Exec (rt : Runtime) (b : InsertBuilder) (ctx : Context) (history : List RunnerCall) :
    List RunnerCall × Int × Option Error :=
  let r := rt.exec ctx b.runner b history
  match r.2.2 with
  | some err => (r.1, 0, some err)
  | none => (r.1, r.2.1.RowsAffected, none)

/-- Method `Load`, with the submissions made to the runner before and after
the call. -/
def Load (rt : Runtime) (b : InsertBuilder) (ctx : Context) (value : GoValue)
    (history : List RunnerCall) : List RunnerCall × Option Error :=
  let r := rt.query ctx b.runner b value history
  (r.1, r.2.2)

/-- Modelled from the spec: the package functions `exec` and `query`, whose
bodies are outside `insert.go`. `exec` "submits the rendered statement plus
binds to an external statement runner" and any runner error "is surfaced
unchanged"; `query` "submits the rendered statement and asks the runner to
scan the result" into the destination and "surfaces runner/scan errors
unchanged". The statement is rendered by `Build` into an empty buffer; an
error of the rendering is returned as it is and nothing is submitted (errors
"are returned as explicit result values up the call chain"). -/
def packageRuntime (env : Env) (d : Driver) : Runtime where
  exec := fun ctx r b history =>
    match Build env b ⟨[]⟩ with
    | (_, some err) => (history, ⟨0⟩, some err)
    | (buf, none) =>
      (history ++ [RunnerCall.ExecContext ctx r buf.text buf.binds],
        d.ExecContext history ctx r buf.text buf.binds)
  query := fun ctx r b value history =>
    match Build env b ⟨[]⟩ with
    | (_, some err) => (history, 0, some err)
    | (buf, none) =>
      (history ++ [RunnerCall.QueryScan ctx r buf.text buf.binds value],
        d.QueryScan history ctx r buf.text buf.binds value)

/-- A runner whose first execution fails and whose later executions succeed
with one row affected; its queries succeed. -/
def flakyDriver : Driver where
  ExecContext := fun history _ _ _ _ =>
    match history with
    | [] => (⟨0⟩, some (Error.other "connection refused"))
    | _ => (⟨1⟩, none)
  QueryScan := fun _ _ _ _ _ _ => (1, none)

/-! ## Definitions used to state the properties of `Record` and `Pair` -/

/-- The column name that `newTagStore` gives to a field: its name tag when the
field is exported, the empty name otherwise. -/
def columnName (f : StructField) : String := if f.PkgPath = "" then f.Tag else ""

/-- The names among `tags` (one per field, in declared order) that `Record`
keeps as columns: the non-empty ones, except `id` on a field whose value is
zero. -/
def derivedColumns (tags : List String) (vfields : List (StructField × GoValue)) :
    List String :=
  ((tags.zip vfields).filter
    (fun p => decide (p.1 ≠ "") && !(decide (p.1 = "id") && p.2.2.IsZero))).map Prod.fst

/-- The value that the tag store `newTagStore` finds in a structure for the
column `c`, as an `interface{}`: the value of the field of that name, `nil`
when there is none. -/
def fieldValueByName (vfields : List (StructField × GoValue)) (c : String) : GoValue :=
  match lookupField c (newTagStore.get (vfields.map Prod.fst)) vfields with
  | some v => v.Interface
  | none => GoValue.nil

/-- A sequence of `Pair` calls, in order; it stops at the first panic. -/
def pairAll : InsertBuilder → List (String × GoValue) → Outcome
  | b, [] => Outcome.ok b
  | b, p :: rest =>
    match Pair b p.1 p.2 with
    | Outcome.ok b' => pairAll b' rest
    | Outcome.panic msg b' => Outcome.panic msg b'

/-- Number of occurrences of a character in a text. -/
def countChar (c : Char) (s : String) : Nat := s.data.count c

/-- An exported field `Id` with the name tag `id`. -/
def idField : StructField := ⟨"Id", "id", "", false⟩

/-- An exported field `Name` with the name tag `name`. -/
def nameField : StructField := ⟨"Name", "name", "", false⟩

/-- A field `secret` that is not exported, with the name tag `secret`. -/
def secretField : StructField := ⟨"secret", "secret", "queryx", false⟩

/-- An exported field `Note` without a name tag. -/
def noteField : StructField := ⟨"Note", "", "", false⟩

/-- A structure whose `Id` field is of type `interface{}` and holds the
integer 0, with a field that is not exported and a field without a tag. -/
def accountRecord : GoValue :=
  GoValue.struct [(idField, GoValue.iface (GoValue.int 0)), (secretField, GoValue.str "s"),
    (noteField, GoValue.str "n"), (nameField, GoValue.str "Al")]

/-- A structure with the fields `Id` and `Name`. -/
def personRecord (id : Int) : GoValue :=
  GoValue.struct [(idField, GoValue.int id), (nameField, GoValue.str "Al")]

/-! ## Lemmas on call logs and on the loops of `Build` -/

theorem textOf_append (l₁ l₂ : List BufCall) : textOf (l₁ ++ l₂) = textOf l₁ ++ textOf l₂ := by
  induction l₁ with
  | nil => simp [textOf]
  | cons c l ih => cases c <;> simp [textOf, ih, String.append_assoc]

theorem valuesOf_append (l₁ l₂ : List BufCall) :
    valuesOf (l₁ ++ l₂) = valuesOf l₁ ++ valuesOf l₂ := by
  induction l₁ with
  | nil => simp [valuesOf]
  | cons c l ih => cases c <;> simp [valuesOf, ih]

theorem valueCallsOf_append (l₁ l₂ : List BufCall) :
    valueCallsOf (l₁ ++ l₂) = valueCallsOf l₁ ++ valueCallsOf l₂ := by
  induction l₁ with
  | nil => simp [valueCallsOf]
  | cons c l ih => cases c <;> simp [valueCallsOf, ih]

theorem valuesOf_eq_flatten (l : List BufCall) : valuesOf l = (valueCallsOf l).flatten := by
  induction l with
  | nil => simp [valuesOf, valueCallsOf]
  | cons c l ih => cases c <;> simp [valuesOf, valueCallsOf, ih]

theorem intercalate_go_append (acc x sep : String) (l : List String) :
    String.intercalate.go (acc ++ x) sep l = acc ++ String.intercalate.go x sep l := by
  induction l generalizing x with
  | nil => simp [String.intercalate.go]
  | cons a l ih =>
    simp only [String.intercalate.go]
    rw [String.append_assoc acc x sep, String.append_assoc acc (x ++ sep) a, ih]

theorem sepCalls_nil {α : Type} (sep : String) (g : α → List BufCall) (i : Nat) :
    sepCalls sep g i [] = [] := by
  simp [sepCalls]

theorem sepCalls_cons {α : Type} (sep : String) (g : α → List BufCall) (i : Nat) (a : α)
    (l : List α) :
    sepCalls sep g i (a :: l)
      = (if i > 0 then [BufCall.WriteString sep] else []) ++ g a ++ sepCalls sep g (i + 1) l := by
  simp [sepCalls, List.enumFrom]

theorem textOf_sepCalls_pos {α : Type} (sep : String) (g : α → List BufCall) (i : Nat)
    (hi : i > 0) (l : List α) (acc : String) :
    acc ++ textOf (sepCalls sep g i l)
      = String.intercalate.go acc sep (l.map (fun a => textOf (g a))) := by
  induction l generalizing i acc with
  | nil => simp [sepCalls_nil, textOf, String.intercalate.go]
  | cons a l ih =>
    rw [sepCalls_cons, if_pos hi, textOf_append, textOf_append]
    simp only [textOf, List.map_cons, String.intercalate.go, String.append_empty]
    rw [← ih (i + 1) (Nat.succ_pos i), String.append_assoc, String.append_assoc,
      String.append_assoc]

theorem textOf_sepCalls_zero {α : Type} (sep : String) (g : α → List BufCall) (l : List α) :
    textOf (sepCalls sep g 0 l) = String.intercalate sep (l.map (fun a => textOf (g a))) := by
  cases l with
  | nil => simp [sepCalls_nil, textOf, String.intercalate]
  | cons a l =>
    rw [sepCalls_cons, textOf_append]
    simp only [List.map_cons, String.intercalate, gt_iff_lt, lt_self_iff_false, if_false,
      List.nil_append]
    exact textOf_sepCalls_pos sep g 1 Nat.one_pos l (textOf (g a))

theorem valueCallsOf_sepCalls {α : Type} (sep : String) (g : α → List BufCall) (i : Nat)
    (l : List α) :
    valueCallsOf (sepCalls sep g i l) = (l.map (fun a => valueCallsOf (g a))).flatten := by
  induction l generalizing i with
  | nil => simp [sepCalls_nil, valueCallsOf]
  | cons a l ih =>
    rw [sepCalls_cons, valueCallsOf_append, valueCallsOf_append, ih]
    by_cases hi : i > 0 <;> simp [hi, valueCallsOf]

theorem columnLoop_fst (env : Env) (i : Nat) (cols : List String) (buf : Buffer)
    (ph : String) :
    (columnLoop env i cols (buf, ph)).1.log
      = buf.log ++ sepCalls "," (fun col => [BufCall.WriteString (env.QuoteIdent col)]) i cols := by
  induction cols generalizing i buf ph with
  | nil => simp [columnLoop, sepCalls_nil]
  | cons c l ih =>
    rw [columnLoop, ih, sepCalls_cons]
    by_cases hi : i > 0 <;> simp [hi, Buffer.WriteString]

theorem columnLoop_snd (env : Env) (i : Nat) (cols : List String) (buf : Buffer)
    (ph : String) :
    (columnLoop env i cols (buf, ph)).2
      = ph ++ textOf (sepCalls "," (fun _ => [BufCall.WriteString placeholder]) i cols) := by
  induction cols generalizing i buf ph with
  | nil => simp [columnLoop, sepCalls_nil, textOf]
  | cons c l ih =>
    rw [columnLoop, ih, sepCalls_cons, textOf_append, textOf_append]
    by_cases hi : i > 0 <;> simp [hi, textOf, String.append_assoc]

theorem valueLoop_log (ph : String) (i : Nat) (tuples : List (List GoValue)) (buf : Buffer) :
    (valueLoop ph i tuples buf).log
      = buf.log ++ sepCalls ", "
          (fun tuple => [BufCall.WriteString ph, BufCall.WriteValue tuple]) i tuples := by
  induction tuples generalizing i buf with
  | nil => simp [valueLoop, sepCalls_nil]
  | cons t l ih =>
    rw [valueLoop, ih, sepCalls_cons]
    by_cases hi : i > 0 <;> simp [hi, Buffer.WriteString, Buffer.WriteValue]

theorem returnLoop_log (env : Env) (i : Nat) (cols : List String) (buf : Buffer) :
    (returnLoop env i cols buf).log
      = buf.log ++ sepCalls "," (fun col => [BufCall.WriteString (env.QuoteIdent col)]) i cols := by
  induction cols generalizing i buf with
  | nil => simp [returnLoop, sepCalls_nil]
  | cons c l ih =>
    rw [returnLoop, ih, sepCalls_cons]
    by_cases hi : i > 0 <;> simp [hi, Buffer.WriteString]

theorem map_const_eq_replicate {α β : Type} (b : β) (l : List α) :
    l.map (fun _ => b) = List.replicate l.length b := by
  induction l with
  | nil => rfl
  | cons a l ih => simp [List.replicate_succ, ih]

theorem placeholderStr_eq (env : Env) (cols : List String) (buf : Buffer) :
    (columnLoop env 0 cols (buf, "" ++ "(")).2 ++ ")" = placeholderGroup cols.length := by
  rw [columnLoop_snd, textOf_sepCalls_zero]
  simp only [textOf, String.append_empty, String.empty_append, placeholderGroup, placeholder]
  rw [map_const_eq_replicate]

/-- The call log of a successful structured `Build`. -/
theorem Build_log (env : Env) (b : InsertBuilder) (buf : Buffer)
    (hraw : b.raw.Query = "") (ht : b.Table ≠ "") (hc : b.Column ≠ []) :
    Build env b buf
      = (⟨buf.log ++ (headerCalls env b ++ tupleCalls b.Column.length b.Value
            ++ returningCalls env b.ReturnColumn)⟩, none) := by
  have hlen : ¬ b.Column.length = 0 := by
    intro h; exact hc (List.length_eq_zero.mp h)
  unfold Build
  simp only [hraw, ne_eq, not_true_eq_false, if_false, ht, hlen]
  refine Prod.ext ?_ rfl
  simp only
  have hb : ∀ x y : Buffer, x.log = y.log → x = y := by
    intro x y h; cases x; cases y; simp_all
  apply hb
  simp only [placeholderStr_eq, headerCalls, tupleCalls, returningCalls]
  by_cases hr : b.ReturnColumn.length > 0 <;> by_cases hi : b.Ignored = true <;>
    simp [hr, hi, returnLoop_log, valueLoop_log, columnLoop_fst, Buffer.WriteString]

theorem Build_table_empty (env : Env) (b : InsertBuilder) (buf : Buffer)
    (hraw : b.raw.Query = "") (ht : b.Table = "") :
    Build env b buf = (buf, some Error.ErrTableNotSpecified) := by
  simp [Build, hraw, ht]

theorem Build_column_empty (env : Env) (b : InsertBuilder) (buf : Buffer)
    (hraw : b.raw.Query = "") (ht : b.Table ≠ "") (hc : b.Column = []) :
    Build env b buf = (buf, some Error.ErrColumnNotSpecified) := by
  simp [Build, hraw, ht, hc]

theorem Build_ok_cases (env : Env) (b : InsertBuilder) (buf : Buffer)
    (hraw : b.raw.Query = "") (hok : (Build env b buf).2 = none) :
    b.Table ≠ "" ∧ b.Column ≠ [] := by
  by_cases ht : b.Table = ""
  · rw [Build_table_empty env b buf hraw ht] at hok
    simp at hok
  · by_cases hc : b.Column = []
    · rw [Build_column_empty env b buf hraw ht hc] at hok
      simp at hok
    · exact ⟨ht, hc⟩

theorem textOf_headerCalls (env : Env) (b : InsertBuilder) :
    textOf (headerCalls env b)
      = (if b.Ignored then "INSERT IGNORE INTO " else "INSERT INTO ")
        ++ env.QuoteIdent b.Table ++ " ("
        ++ String.intercalate "," (b.Column.map env.QuoteIdent) ++ ") VALUES " := by
  unfold headerCalls
  rw [textOf_append, textOf_append, textOf_sepCalls_zero]
  have h : ")" ++ " VALUES " = ") VALUES " := by decide
  simp only [textOf, String.append_empty, String.append_assoc, h]

theorem textOf_tupleCalls (n : Nat) (tuples : List (List GoValue)) :
    textOf (tupleCalls n tuples)
      = String.intercalate ", " (List.replicate tuples.length (placeholderGroup n)) := by
  simp only [tupleCalls, textOf_sepCalls_zero, textOf, String.append_empty]
  rw [map_const_eq_replicate]

theorem valueCallsOf_headerCalls (env : Env) (b : InsertBuilder) :
    valueCallsOf (headerCalls env b) = [] := by
  simp [headerCalls, valueCallsOf_append, valueCallsOf_sepCalls, valueCallsOf]

theorem valueCallsOf_tupleCalls (n : Nat) (tuples : List (List GoValue)) :
    valueCallsOf (tupleCalls n tuples) = tuples := by
  simp only [tupleCalls, valueCallsOf_sepCalls, valueCallsOf]
  induction tuples with
  | nil => rfl
  | cons t l ih => simpa using ih

theorem valueCallsOf_returningCalls (env : Env) (cols : List String) :
    valueCallsOf (returningCalls env cols) = [] := by
  unfold returningCalls
  split <;> simp [valueCallsOf, valueCallsOf_sepCalls]

theorem textOf_returningCalls_nil (env : Env) : textOf (returningCalls env []) = "" := by
  simp [returningCalls, textOf]

theorem textOf_returningCalls_cons (env : Env) (c : String) (cols : List String) :
    textOf (returningCalls env (c :: cols))
      = " RETURNING " ++ String.intercalate "," ((c :: cols).map env.QuoteIdent) := by
  unfold returningCalls
  rw [if_pos (by simp), textOf, textOf_sepCalls_zero]
  simp only [textOf, String.append_empty]

theorem string_append_left_cancel (a x y : String) (h : a ++ x = a ++ y) : x = y := by
  apply String.ext
  have h' := congrArg String.data h
  rw [String.data_append, String.data_append] at h'
  exact List.append_cancel_left h'

/-- The text written by a successful structured `Build`, in closed form. -/
theorem Build_text (env : Env) (b : InsertBuilder) (buf : Buffer)
    (hraw : b.raw.Query = "") (ht : b.Table ≠ "") (hc : b.Column ≠ []) :
    (Build env b buf).1.text
      = buf.text ++ ((if b.Ignored then "INSERT IGNORE INTO " else "INSERT INTO ")
          ++ (env.QuoteIdent b.Table ++ " ("
            ++ String.intercalate "," (b.Column.map env.QuoteIdent) ++ ") VALUES "
            ++ String.intercalate ", "
                (List.replicate b.Value.length (placeholderGroup b.Column.length))
            ++ textOf (returningCalls env b.ReturnColumn))) := by
  rw [Build_log env b buf hraw ht hc]
  simp only [Buffer.text, textOf_append, textOf_headerCalls, textOf_tupleCalls,
    String.append_assoc]

/-- The bind-value calls of a successful structured `Build`. -/
theorem Build_valueCalls (env : Env) (b : InsertBuilder) (buf : Buffer)
    (hraw : b.raw.Query = "") (ht : b.Table ≠ "") (hc : b.Column ≠ []) :
    valueCallsOf (Build env b buf).1.log = valueCallsOf buf.log ++ b.Value := by
  rw [Build_log env b buf hraw ht hc]
  simp only [valueCallsOf_append, valueCallsOf_headerCalls, valueCallsOf_tupleCalls,
    valueCallsOf_returningCalls]
  simp

/-! ## Rendering: errors, text and bind values -/

/-- C1: in structured mode (empty raw query) `Build` returns an error exactly
when the table name or the column list is empty: `ErrTableNotSpecified`
whenever the table name is empty, `ErrColumnNotSpecified` when the table name
is non-empty and the column list is empty, `nil` otherwise; and the two errors
are distinct. -/
theorem Build_error_iff (env : Env) (b : InsertBuilder) (buf : Buffer)
    (hraw : b.raw.Query = "") :
    ((Build env b buf).2 ≠ none ↔ (b.Table = "" ∨ b.Column = []))
    ∧ (b.Table = "" → (Build env b buf).2 = some Error.ErrTableNotSpecified)
    ∧ (b.Table ≠ "" → b.Column = [] → (Build env b buf).2 = some Error.ErrColumnNotSpecified)
    ∧ (b.Table ≠ "" → b.Column ≠ [] → (Build env b buf).2 = none)
    ∧ Error.ErrTableNotSpecified ≠ Error.ErrColumnNotSpecified := by
  refine ⟨?_, ?_, ?_, ?_, by decide⟩
  · constructor
    · intro h
      by_contra hn
      push_neg at hn
      rw [Build_log env b buf hraw hn.1 hn.2] at h
      exact h rfl
    · rintro (ht | hc)
      · rw [Build_table_empty env b buf hraw ht]; simp
      · by_cases ht : b.Table = ""
        · rw [Build_table_empty env b buf hraw ht]; simp
        · rw [Build_column_empty env b buf hraw ht hc]; simp
  · intro ht; rw [Build_table_empty env b buf hraw ht]
  · intro ht hc; rw [Build_column_empty env b buf hraw ht hc]
  · intro ht hc; rw [Build_log env b buf hraw ht hc]

/-- Witness for C1: a builder with an empty table and no columns, and one with
a table and no columns. -/
theorem Build_error_iff_witness :
    (InsertInto ⟨0⟩ "").raw.Query = ""
    ∧ (Build exampleEnv (InsertInto ⟨0⟩ "") ⟨[]⟩).2 = some Error.ErrTableNotSpecified :=
  ⟨rfl, (Build_error_iff exampleEnv (InsertInto ⟨0⟩ "") ⟨[]⟩ rfl).2.1 rfl⟩

/-- C2: in structured mode, with a non-empty table, a non-empty column list,
`Ignored` false and no return columns, `Build` succeeds and the text it writes
is `INSERT INTO `, the quoted table, the quoted columns separated by commas in
parentheses, ` VALUES ` and one placeholder group per tuple, each of as many
placeholders as there are columns, the groups separated by `, `. In particular,
when `QuoteIdent` wraps the names in double quotes, the example builder renders
to the statement of the spec with binds `["Alice", 30]`. -/
theorem Build_text_plain (env : Env) (b : InsertBuilder) (buf : Buffer)
    (hraw : b.raw.Query = "") (ht : b.Table ≠ "") (hc : b.Column ≠ [])
    (hi : b.Ignored = false) (hr : b.ReturnColumn = []) :
    (Build env b buf).2 = none
    ∧ (Build env b buf).1.text
        = buf.text ++ ("INSERT INTO " ++ env.QuoteIdent b.Table ++ " ("
            ++ String.intercalate "," (b.Column.map env.QuoteIdent) ++ ") VALUES "
            ++ String.intercalate ", "
                (List.replicate b.Value.length
                  ("(" ++ String.intercalate "," (List.replicate b.Column.length "?") ++ ")")))
    ∧ ((∀ s ∈ ["users", "name", "age"], env.QuoteIdent s = "\"" ++ s ++ "\"") →
        (Build env usersBuilder buf).2 = none
        ∧ (Build env usersBuilder buf).1.text
            = buf.text ++ "INSERT INTO \"users\" (\"name\",\"age\") VALUES (?,?)"
        ∧ (Build env usersBuilder buf).1.binds
            = buf.binds ++ [GoValue.str "Alice", GoValue.int 30]) := by
  refine ⟨?_, ?_, ?_⟩
  · rw [Build_log env b buf hraw ht hc]
  · rw [Build_log env b buf hraw ht hc]
    simp only [Buffer.text, textOf_append, textOf_headerCalls, textOf_tupleCalls, hr,
      textOf_returningCalls_nil, hi, String.append_empty, placeholderGroup]
    simp
  · intro hq
    have hu := hq "users" (by simp)
    have hn := hq "name" (by simp)
    have ha := hq "age" (by simp)
    rw [Build_log env usersBuilder buf rfl (by decide) (by decide)]
    refine ⟨rfl, ?_, ?_⟩
    · simp only [Buffer.text, textOf_append, textOf_headerCalls, textOf_tupleCalls,
        textOf_returningCalls_nil, usersBuilder, Values, Columns, InsertInto]
      simp only [List.map, hu, hn, ha]
      rfl
    · simp only [Buffer.binds, valuesOf_eq_flatten, valueCallsOf_append,
        valueCallsOf_headerCalls, valueCallsOf_tupleCalls, valueCallsOf_returningCalls]
      simp [usersBuilder, Values, Columns, InsertInto]

/-- Witness for C2: the example builder of the spec, rendered into an empty
buffer with double-quote quoting. -/
theorem Build_text_plain_witness :
    usersBuilder.raw.Query = "" ∧ usersBuilder.Table ≠ "" ∧ usersBuilder.Column ≠ []
    ∧ usersBuilder.Ignored = false ∧ usersBuilder.ReturnColumn = []
    ∧ (∀ s ∈ ["users", "name", "age"], exampleEnv.QuoteIdent s = "\"" ++ s ++ "\"")
    ∧ (Build exampleEnv usersBuilder ⟨[]⟩).2 = none
    ∧ (Build exampleEnv usersBuilder ⟨[]⟩).1.text
        = Buffer.text ⟨[]⟩ ++ "INSERT INTO \"users\" (\"name\",\"age\") VALUES (?,?)"
    ∧ (Build exampleEnv usersBuilder ⟨[]⟩).1.binds
        = Buffer.binds ⟨[]⟩ ++ [GoValue.str "Alice", GoValue.int 30] :=
  ⟨rfl, by decide, by decide, rfl, rfl, fun _ _ => rfl,
    (Build_text_plain exampleEnv usersBuilder ⟨[]⟩ rfl (by decide) (by decide) rfl rfl).2.2
      (fun _ _ => rfl)⟩

/-- C3: in structured mode, when `Build` succeeds, the `WriteValue` calls it
makes are exactly the value tuples, one call per tuple in the order the tuples
were added, so the bind values registered are the concatenation of the tuples;
and each of these calls comes immediately after the `WriteString` of that
tuple's placeholder group: the calls made are a header without `WriteValue`,
then for each tuple (after `, ` for all but the first) the placeholder group
followed by the tuple's values, then a trailer without `WriteValue`. -/
theorem Build_binds (env : Env) (b : InsertBuilder) (buf : Buffer)
    (hraw : b.raw.Query = "") (hok : (Build env b buf).2 = none) :
    (Build env b buf).1.binds = buf.binds ++ b.Value.flatten
    ∧ valueCallsOf (Build env b buf).1.log = valueCallsOf buf.log ++ b.Value
    ∧ ∃ header trailer : List BufCall,
        valueCallsOf header = [] ∧ valueCallsOf trailer = []
        ∧ (Build env b buf).1.log
            = buf.log ++ (header
                ++ (b.Value.enum.flatMap (fun p =>
                      (if p.1 > 0 then [BufCall.WriteString ", "] else [])
                      ++ [BufCall.WriteString (placeholderGroup b.Column.length),
                          BufCall.WriteValue p.2]))
                ++ trailer) := by
  obtain ⟨ht, hc⟩ := Build_ok_cases env b buf hraw hok
  rw [Build_log env b buf hraw ht hc]
  refine ⟨?_, ?_, headerCalls env b, returningCalls env b.ReturnColumn,
    valueCallsOf_headerCalls env b, valueCallsOf_returningCalls env _, ?_⟩
  · simp only [Buffer.binds, valuesOf_eq_flatten, valueCallsOf_append,
      valueCallsOf_headerCalls, valueCallsOf_tupleCalls, valueCallsOf_returningCalls]
    simp
  · simp only [valueCallsOf_append, valueCallsOf_headerCalls, valueCallsOf_tupleCalls,
      valueCallsOf_returningCalls]
    simp
  · rfl

/-- Witness for C3: the example builder with a second tuple added. -/
theorem Build_binds_witness :
    (Values usersBuilder [GoValue.str "Bob", GoValue.int 41]).raw.Query = ""
    ∧ (Build exampleEnv (Values usersBuilder [GoValue.str "Bob", GoValue.int 41]) ⟨[]⟩).2 = none
    ∧ (Build exampleEnv (Values usersBuilder [GoValue.str "Bob", GoValue.int 41]) ⟨[]⟩).1.binds
        = Buffer.binds ⟨[]⟩
          ++ (Values usersBuilder [GoValue.str "Bob", GoValue.int 41]).Value.flatten :=
  ⟨rfl, rfl,
    (Build_binds exampleEnv (Values usersBuilder [GoValue.str "Bob", GoValue.int 41]) ⟨[]⟩
      rfl rfl).1⟩

/-- C4: in structured mode, when `Build` succeeds, `Ignore()` changes only the
statement prefix: whenever the builder with `Ignored` false writes
`INSERT INTO ` followed by `rest` (and it does, for some `rest`), the builder
after `Ignore()` writes `INSERT IGNORE INTO ` followed by the same `rest`,
succeeds as well and makes the same `WriteValue` calls; and `Ignore()` sets
`Ignored` and changes no other field. -/
theorem Ignore_rest_same (env : Env) (b : InsertBuilder) (buf : Buffer)
    (hraw : b.raw.Query = "") (hok : (Build env b buf).2 = none) :
    (∃ rest, (Build env { b with Ignored := false } buf).1.text
        = buf.text ++ ("INSERT INTO " ++ rest))
    ∧ (∀ rest, (Build env { b with Ignored := false } buf).1.text
          = buf.text ++ ("INSERT INTO " ++ rest) →
        (Build env (Ignore b) buf).1.text = buf.text ++ ("INSERT IGNORE INTO " ++ rest))
    ∧ (Build env (Ignore b) buf).2 = none
    ∧ valueCallsOf (Build env (Ignore b) buf).1.log
        = valueCallsOf (Build env { b with Ignored := false } buf).1.log
    ∧ (Build env (Ignore b) buf).1.binds = (Build env { b with Ignored := false } buf).1.binds
    ∧ (Ignore b).Ignored = true
    ∧ (Ignore b).runner = b.runner ∧ (Ignore b).raw = b.raw ∧ (Ignore b).Table = b.Table
    ∧ (Ignore b).Column = b.Column ∧ (Ignore b).Value = b.Value
    ∧ (Ignore b).ReturnColumn = b.ReturnColumn := by
  obtain ⟨ht, hc⟩ := Build_ok_cases env b buf hraw hok
  have hF := Build_text env { b with Ignored := false } buf hraw ht hc
  have hT := Build_text env (Ignore b) buf hraw ht hc
  have vF := Build_valueCalls env { b with Ignored := false } buf hraw ht hc
  have vT := Build_valueCalls env (Ignore b) buf hraw ht hc
  simp only [Ignore, Bool.false_eq_true, if_false, if_true] at hF hT vF vT
  refine ⟨⟨_, hF⟩, ?_, ?_, ?_, ?_, rfl, rfl, rfl, rfl, rfl, rfl, rfl⟩
  · intro rest h
    rw [hF] at h
    have h2 := string_append_left_cancel _ _ _ (string_append_left_cancel _ _ _ h)
    simp only [Ignore]
    rw [hT, h2]
  · rw [Build_log env (Ignore b) buf hraw ht hc]
  · simp only [Ignore]
    rw [vF, vT]
  · simp only [Buffer.binds, valuesOf_eq_flatten, Ignore]
    rw [vF, vT]

/-- Witness for C4: the example builder of the spec. -/
theorem Ignore_rest_same_witness :
    usersBuilder.raw.Query = "" ∧ (Build exampleEnv usersBuilder ⟨[]⟩).2 = none
    ∧ (Build exampleEnv (Ignore usersBuilder) ⟨[]⟩).1.text
        = Buffer.text ⟨[]⟩ ++ ("INSERT IGNORE INTO " ++ "\"users\" (\"name\",\"age\") VALUES (?,?)") :=
  ⟨rfl, rfl,
    (Ignore_rest_same exampleEnv usersBuilder ⟨[]⟩ rfl rfl).2.1
      "\"users\" (\"name\",\"age\") VALUES (?,?)" rfl⟩

/-- C5: in structured mode, when `Build` succeeds: the calls made are those
made for the same builder without return columns followed by the calls of the
RETURNING clause, none of which registers a value; with a non-empty
return-column list the text is the text without return columns followed by
` RETURNING ` and the quoted return columns separated by commas; with an empty
list (also after `Returning()` without arguments) the text ends with the value
groups and is the text without the clause; for `Returning("x","y")` the suffix
is ` RETURNING `, quoted `x`, a comma, quoted `y`. -/
theorem Returning_suffix (env : Env) (b : InsertBuilder) (buf : Buffer)
    (hraw : b.raw.Query = "") (hok : (Build env b buf).2 = none) :
    ((Build env b buf).1.log
        = (Build env { b with ReturnColumn := [] } buf).1.log
          ++ returningCalls env b.ReturnColumn
      ∧ valueCallsOf (returningCalls env b.ReturnColumn) = [])
    ∧ (b.ReturnColumn ≠ [] →
        (Build env b buf).1.text
          = (Build env { b with ReturnColumn := [] } buf).1.text
            ++ (" RETURNING " ++ String.intercalate "," (b.ReturnColumn.map env.QuoteIdent)))
    ∧ (b.ReturnColumn = [] →
        (Build env b buf).1.text
          = buf.text ++ ((if b.Ignored then "INSERT IGNORE INTO " else "INSERT INTO ")
              ++ (env.QuoteIdent b.Table ++ " ("
                ++ String.intercalate "," (b.Column.map env.QuoteIdent) ++ ") VALUES "
                ++ String.intercalate ", "
                    (List.replicate b.Value.length (placeholderGroup b.Column.length)))))
    ∧ Build env (Returning b []) buf = Build env { b with ReturnColumn := [] } buf
    ∧ (Build env (Returning b ["x", "y"]) buf).1.text
        = (Build env (Returning b []) buf).1.text
          ++ (" RETURNING " ++ env.QuoteIdent "x" ++ "," ++ env.QuoteIdent "y") := by
  obtain ⟨ht, hc⟩ := Build_ok_cases env b buf hraw hok
  have hlog : ∀ rs : List String,
      (Build env { b with ReturnColumn := rs } buf).1.log
        = (Build env { b with ReturnColumn := [] } buf).1.log ++ returningCalls env rs := by
    intro rs
    rw [Build_log env { b with ReturnColumn := rs } buf hraw ht hc,
      Build_log env { b with ReturnColumn := [] } buf hraw ht hc]
    simp [headerCalls, returningCalls]
  have htext : ∀ rs : List String,
      (Build env { b with ReturnColumn := rs } buf).1.text
        = (Build env { b with ReturnColumn := [] } buf).1.text
          ++ textOf (returningCalls env rs) := by
    intro rs
    simp only [Buffer.text]
    rw [hlog rs, textOf_append]
  refine ⟨⟨hlog b.ReturnColumn, valueCallsOf_returningCalls env _⟩, ?_, ?_, rfl, ?_⟩
  · intro hr
    obtain ⟨c, cols, hcols⟩ := List.exists_cons_of_ne_nil hr
    have h := htext b.ReturnColumn
    rw [hcols, textOf_returningCalls_cons, ← hcols] at h
    exact h
  · intro hr
    rw [Build_text env b buf hraw ht hc, hr, textOf_returningCalls_nil, String.append_empty]
  · have h := htext ["x", "y"]
    rw [textOf_returningCalls_cons] at h
    simp only [Returning]
    rw [h]
    simp [String.intercalate, String.intercalate.go, String.append_assoc]

/-- Witness for C5: the example builder of the spec with `Returning("id")`. -/
theorem Returning_suffix_witness :
    (Returning usersBuilder ["id"]).raw.Query = ""
    ∧ (Build exampleEnv (Returning usersBuilder ["id"]) ⟨[]⟩).2 = none
    ∧ (Returning usersBuilder ["id"]).ReturnColumn ≠ []
    ∧ (Build exampleEnv (Returning usersBuilder ["id"]) ⟨[]⟩).1.text
        = (Build exampleEnv { Returning usersBuilder ["id"] with ReturnColumn := [] } ⟨[]⟩).1.text
          ++ (" RETURNING " ++ String.intercalate ","
                ((Returning usersBuilder ["id"]).ReturnColumn.map exampleEnv.QuoteIdent)) :=
  ⟨rfl, rfl, by decide,
    (Returning_suffix exampleEnv (Returning usersBuilder ["id"]) ⟨[]⟩ rfl rfl).2.1 (by decide)⟩

/-- C6: with a non-empty raw query `Build` is the raw rendering on the same
buffer and nothing else, whatever the structured fields hold: a builder with
the same raw query and values gives the same buffer and the same result, in
particular one whose table name and column list are empty; and when raw
rendering writes the query text, registers the values and returns `nil`, so
does `Build`. -/
theorem Build_raw (env : Env) (b : InsertBuilder) (buf : Buffer)
    (hraw : b.raw.Query ≠ "") :
    Build env b buf = env.rawBuild b.raw buf
    ∧ (∀ b' : InsertBuilder, b'.raw = b.raw → Build env b' buf = Build env b buf)
    ∧ Build env { b with Table := "", Column := [] } buf = env.rawBuild b.raw buf
    ∧ Build { env with rawBuild := raw.Build } { b with Table := "", Column := [] } buf
        = (⟨buf.log ++ [BufCall.WriteString b.raw.Query, BufCall.WriteValue b.raw.Value]⟩, none) := by
  have key : ∀ (e : Env) (b' : InsertBuilder), b'.raw = b.raw →
      Build e b' buf = e.rawBuild b.raw buf := by
    intro e b' h
    unfold Build
    rw [h, if_pos hraw]
  refine ⟨key env b rfl, ?_, key env _ rfl, ?_⟩
  · intro b' h
    rw [key env b' h, key env b rfl]
  · rw [key { env with rawBuild := raw.Build } { b with Table := "", Column := [] } rfl]
    simp [raw.Build, Buffer.WriteString, Buffer.WriteValue]

/-- Witness for C6: a raw builder with no table and no columns. -/
theorem Build_raw_witness :
    (InsertSql ⟨0⟩ "INSERT INTO t VALUES (?)" [GoValue.int 1]).raw.Query ≠ ""
    ∧ Build exampleEnv (InsertSql ⟨0⟩ "INSERT INTO t VALUES (?)" [GoValue.int 1]) ⟨[]⟩
        = exampleEnv.rawBuild (InsertSql ⟨0⟩ "INSERT INTO t VALUES (?)" [GoValue.int 1]).raw ⟨[]⟩ :=
  ⟨by decide,
    (Build_raw exampleEnv (InsertSql ⟨0⟩ "INSERT INTO t VALUES (?)" [GoValue.int 1]) ⟨[]⟩
      (by decide)).1⟩

/-! ## The configuration methods -/

/-- C7: `Pair(c, v)` panics exactly when the builder already holds more than
one tuple. With no tuple it appends `c` to the column list and the value list
becomes the single tuple `[v]`; with exactly one tuple it appends `c` to the
column list and `v` to that tuple, the number of tuples staying one. After two
`Values` calls a `Pair` call panics. -/
theorem Pair_cases (b : InsertBuilder) (c : String) (v : GoValue) :
    ((∃ msg b', Pair b c v = Outcome.panic msg b') ↔ b.Value.length > 1)
    ∧ (b.Value = [] →
        Pair b c v = Outcome.ok { b with Column := b.Column ++ [c], Value := [[v]] })
    ∧ (∀ t, b.Value = [t] →
        Pair b c v = Outcome.ok { b with Column := b.Column ++ [c], Value := [t ++ [v]] })
    ∧ (∀ vs₁ vs₂ : List GoValue, ∃ b',
        Pair (Values (Values b vs₁) vs₂) c v
          = Outcome.panic "pair only allows one record to insert" b') := by
  refine ⟨?_, ?_, ?_, ?_⟩
  · rcases hv : b.Value with _ | ⟨t, _ | ⟨t', l⟩⟩
    · simp [Pair, hv, Values]
    · simp [Pair, hv]
    · simp [Pair, hv]
  · intro hv
    simp [Pair, hv, Values]
  · intro t hv
    simp [Pair, hv]
  · intro vs₁ vs₂
    rcases hv : b.Value with _ | ⟨t, l⟩
    · exact ⟨_, by simp [Pair, Values, hv]; rfl⟩
    · rcases l with _ | ⟨t', l⟩
      · exact ⟨_, by simp [Pair, Values, hv]; rfl⟩
      · exact ⟨_, by simp [Pair, Values, hv]; rfl⟩

/-- Witness for C7: a second `Pair` on a builder that holds one tuple. -/
theorem Pair_cases_witness :
    usersBuilder.Value = [[GoValue.str "Alice", GoValue.int 30]]
    ∧ Pair usersBuilder "city" (GoValue.str "Oslo")
        = Outcome.ok { usersBuilder with
            Column := usersBuilder.Column ++ ["city"],
            Value := [[GoValue.str "Alice", GoValue.int 30] ++ [GoValue.str "Oslo"]] } :=
  ⟨rfl, (Pair_cases usersBuilder "city" (GoValue.str "Oslo")).2.2.1 _ rfl⟩

/-- C8: `Values(vs)`, for a list `vs` of any length, returns normally without
any arity check: the value list becomes the previous one with `vs` appended as
one new last tuple, the earlier tuples are unchanged and in the same position,
and the table, the columns, the return columns, the ignore flag, the raw
override and the runner are unchanged. -/
theorem Values_frame (b : InsertBuilder) (vs : List GoValue) :
    (Values b vs).Value = b.Value ++ [vs]
    ∧ (Values b vs).Value.length = b.Value.length + 1
    ∧ (Values b vs).Value.take b.Value.length = b.Value
    ∧ (Values b vs).Value.getLast? = some vs
    ∧ (Values b vs).Table = b.Table ∧ (Values b vs).Column = b.Column
    ∧ (Values b vs).ReturnColumn = b.ReturnColumn ∧ (Values b vs).Ignored = b.Ignored
    ∧ (Values b vs).raw = b.raw ∧ (Values b vs).runner = b.runner := by
  simp [Values]

/-- C9: `Columns(ns)` replaces the column list: afterwards it is exactly `ns`
whatever it was before, so `Columns(xs)` followed by `Columns(ns)` is
`Columns(ns)` alone; the table, the value list, the return columns, the ignore
flag, the raw override and the runner are unchanged. -/
theorem Columns_replace (b : InsertBuilder) (ns : List String) :
    (Columns b ns).Column = ns
    ∧ (∀ xs : List String, Columns (Columns b xs) ns = Columns b ns)
    ∧ (Columns b ns).Table = b.Table ∧ (Columns b ns).Value = b.Value
    ∧ (Columns b ns).ReturnColumn = b.ReturnColumn ∧ (Columns b ns).Ignored = b.Ignored
    ∧ (Columns b ns).raw = b.raw ∧ (Columns b ns).runner = b.runner := by
  simp [Columns]

/-- C10: `Record(record)` on a record that, after one level of indirection, is
not a structure returns normally and leaves the builder as it was: the column
list, the value list and all other fields are the same and no tuple is
appended. -/
theorem Record_nonstruct (s : tagStore) (b : InsertBuilder) (record : GoValue)
    (h : (reflectIndirect (reflectValueOf record)).Kind ≠ Kind.Struct) :
    Record s b record = Outcome.ok b := by
  unfold Record
  generalize reflectIndirect (reflectValueOf record) = v at h
  rcases v with _ | x
  · rfl
  · cases x <;> first | rfl | exact absurd rfl h

/-- Witness for C10: a pointer to an integer. -/
theorem Record_nonstruct_witness :
    (reflectIndirect (reflectValueOf (GoValue.ptr (some (GoValue.int 5))))).Kind ≠ Kind.Struct
    ∧ Record newTagStore usersBuilder (GoValue.ptr (some (GoValue.int 5)))
        = Outcome.ok usersBuilder :=
  ⟨by decide, Record_nonstruct newTagStore usersBuilder (GoValue.ptr (some (GoValue.int 5)))
    (by decide)⟩

/-! ## Rendering: independence of the values, failed and raw rendering -/

/-- C15: values are never interpolated into the text: two builders in
structured mode with the same table, columns, return columns and ignore flag
and the same number of tuples, whatever the tuples hold and however long they
are, get the same result from `Build` and the same text written; on success
the values are passed in the `WriteValue` calls, which are exactly the
tuples. -/
theorem Build_text_value_independent (env : Env) (b₁ b₂ : InsertBuilder) (buf : Buffer)
    (h₁ : b₁.raw.Query = "") (h₂ : b₂.raw.Query = "")
    (hT : b₁.Table = b₂.Table) (hC : b₁.Column = b₂.Column)
    (hR : b₁.ReturnColumn = b₂.ReturnColumn) (hI : b₁.Ignored = b₂.Ignored)
    (hn : b₁.Value.length = b₂.Value.length) :
    (Build env b₁ buf).2 = (Build env b₂ buf).2
    ∧ (Build env b₁ buf).1.text = (Build env b₂ buf).1.text
    ∧ ((Build env b₁ buf).2 = none →
        valueCallsOf (Build env b₁ buf).1.log = valueCallsOf buf.log ++ b₁.Value
        ∧ valueCallsOf (Build env b₂ buf).1.log = valueCallsOf buf.log ++ b₂.Value) := by
  by_cases ht : b₁.Table = ""
  · have ht₂ : b₂.Table = "" := hT ▸ ht
    rw [Build_table_empty env b₁ buf h₁ ht, Build_table_empty env b₂ buf h₂ ht₂]
    simp
  · have ht₂ : b₂.Table ≠ "" := hT ▸ ht
    by_cases hc : b₁.Column = []
    · have hc₂ : b₂.Column = [] := hC ▸ hc
      rw [Build_column_empty env b₁ buf h₁ ht hc, Build_column_empty env b₂ buf h₂ ht₂ hc₂]
      simp
    · have hc₂ : b₂.Column ≠ [] := hC ▸ hc
      refine ⟨?_, ?_, fun _ => ⟨Build_valueCalls env b₁ buf h₁ ht hc,
        Build_valueCalls env b₂ buf h₂ ht₂ hc₂⟩⟩
      · rw [Build_log env b₁ buf h₁ ht hc, Build_log env b₂ buf h₂ ht₂ hc₂]
      · rw [Build_text env b₁ buf h₁ ht hc, Build_text env b₂ buf h₂ ht₂ hc₂,
          hT, hC, hR, hI, hn]

/-- Witness for C15: the example builder and the same builder with another
tuple of another length. -/
theorem Build_text_value_independent_witness :
    usersBuilder.raw.Query = ""
    ∧ ({ usersBuilder with Value := [[GoValue.str "x; DROP TABLE users"]] } : InsertBuilder).Value.length
        = usersBuilder.Value.length
    ∧ (Build exampleEnv usersBuilder ⟨[]⟩).1.text
        = (Build exampleEnv { usersBuilder with Value := [[GoValue.str "x; DROP TABLE users"]] }
            ⟨[]⟩).1.text :=
  ⟨rfl, rfl,
    (Build_text_value_independent exampleEnv usersBuilder
      { usersBuilder with Value := [[GoValue.str "x; DROP TABLE users"]] } ⟨[]⟩
      rfl rfl rfl rfl rfl rfl rfl).2.1⟩

/-- C16: in structured mode with an empty table name or an empty column list
`Build` returns `ErrTableNotSpecified` or `ErrColumnNotSpecified` and leaves
the buffer as it was, text and bind values included; and whenever a structured
`Build` returns an error the buffer is as it was. -/
theorem Build_error_writes_nothing (env : Env) (b : InsertBuilder) (buf : Buffer)
    (hraw : b.raw.Query = "") :
    (b.Table = "" ∨ b.Column = [] →
      ((Build env b buf).2 = some Error.ErrTableNotSpecified
        ∨ (Build env b buf).2 = some Error.ErrColumnNotSpecified)
      ∧ (Build env b buf).1 = buf
      ∧ (Build env b buf).1.text = buf.text
      ∧ (Build env b buf).1.binds = buf.binds)
    ∧ ((Build env b buf).2 ≠ none → (Build env b buf).1 = buf) := by
  have key : b.Table = "" ∨ b.Column = [] →
      ((Build env b buf).2 = some Error.ErrTableNotSpecified
        ∨ (Build env b buf).2 = some Error.ErrColumnNotSpecified)
      ∧ (Build env b buf).1 = buf := by
    intro h
    by_cases ht : b.Table = ""
    · rw [Build_table_empty env b buf hraw ht]; simp
    · have hc : b.Column = [] := h.resolve_left ht
      rw [Build_column_empty env b buf hraw ht hc]; simp
  refine ⟨fun h => ⟨(key h).1, (key h).2, by rw [(key h).2], by rw [(key h).2]⟩, ?_⟩
  intro herr
  by_cases ht : b.Table = ""
  · exact (key (Or.inl ht)).2
  · by_cases hc : b.Column = []
    · exact (key (Or.inr hc)).2
    · rw [Build_log env b buf hraw ht hc] at herr
      exact absurd rfl herr

/-- Witness for C16: a builder with a table and no columns, on a buffer that
already holds text and a value. -/
theorem Build_error_writes_nothing_witness :
    (InsertInto ⟨0⟩ "users").raw.Query = ""
    ∧ ((InsertInto ⟨0⟩ "users").Table = "" ∨ (InsertInto ⟨0⟩ "users").Column = [])
    ∧ (Build exampleEnv (InsertInto ⟨0⟩ "users")
        ⟨[BufCall.WriteString "x", BufCall.WriteValue [GoValue.int 1]]⟩).1
        = ⟨[BufCall.WriteString "x", BufCall.WriteValue [GoValue.int 1]]⟩ :=
  ⟨rfl, Or.inr rfl,
    ((Build_error_writes_nothing exampleEnv (InsertInto ⟨0⟩ "users")
      ⟨[BufCall.WriteString "x", BufCall.WriteValue [GoValue.int 1]]⟩ rfl).1 (Or.inr rfl)).2.1⟩

/-- C20: a builder created by `InsertSql` with an empty query is not in raw
mode: whatever the values and whatever raw rendering would do, `Build` returns
`ErrTableNotSpecified` and writes nothing, and once a table and columns are
set it renders as the structured builder of that table does; a builder whose
raw query is a non-empty `q` with values `vs`, as `InsertSql(q, vs...)`
creates it, is rendered by raw rendering of `q` and `vs`. -/
theorem InsertSql_mode (env : Env) (db : runner) (vs : List GoValue) (buf : Buffer) :
    Build env (InsertSql db "" vs) buf = (buf, some Error.ErrTableNotSpecified)
    ∧ (∀ (env' : Env) (vs' : List GoValue),
        Build env' (InsertSql db "" vs') buf = Build env (InsertSql db "" vs) buf)
    ∧ (∀ (t : String) (cols : List String),
        Build env { InsertSql db "" vs with Table := t, Column := cols } buf
          = Build env (Columns (InsertInto db t) cols) buf)
    ∧ (∀ q : String, q ≠ "" →
        Build env (InsertSql db q vs) buf = env.rawBuild ⟨q, vs⟩ buf
        ∧ ∀ b : InsertBuilder, b.raw = (InsertSql db q vs).raw →
            Build env b buf = env.rawBuild ⟨q, vs⟩ buf) := by
  refine ⟨Build_table_empty env _ buf rfl rfl, ?_, ?_, ?_⟩
  · intro env' vs'
    rw [Build_table_empty env' _ buf rfl rfl, Build_table_empty env _ buf rfl rfl]
  · intro t cols
    simp [Build, InsertSql, InsertInto, Columns]
  · intro q hq
    have key : ∀ b : InsertBuilder, b.raw = (InsertSql db q vs).raw →
        Build env b buf = env.rawBuild ⟨q, vs⟩ buf := by
      intro b hb
      have hb' : b.raw = ⟨q, vs⟩ := hb
      unfold Build
      rw [hb', if_pos hq]
    exact ⟨key _ rfl, key⟩

/-- Witness for C20: `InsertSql` with a non-empty query. -/
theorem InsertSql_mode_witness :
    "SELECT 1" ≠ ""
    ∧ Build exampleEnv (InsertSql ⟨0⟩ "SELECT 1" [GoValue.int 1]) ⟨[]⟩
        = exampleEnv.rawBuild ⟨"SELECT 1", [GoValue.int 1]⟩ ⟨[]⟩ :=
  ⟨by decide,
    ((InsertSql_mode exampleEnv ⟨0⟩ [GoValue.int 1] ⟨[]⟩).2.2.2 "SELECT 1" (by decide)).1⟩

/-! ## Execution -/

/-- C17: `Exec` and `Load` call `exec` and `query` once and pass on the
submissions they made. With the package functions as the spec describes them,
for a statement that renders to `buf`: `Exec` submits it to the runner exactly
once, returns `(0, err)` with `err` the very error of the runner when that
execution fails, and the rows-affected count of the runner's result with `nil`
when it succeeds; `Load` submits it exactly once with the destination and
returns the very error (or `nil`) of the runner's query and scan. -/
theorem Exec_Load_passthrough (env : Env) (d : Driver) (b : InsertBuilder) (ctx : Context)
    (value : GoValue) (history : List RunnerCall) :
    (∀ rt : Runtime,
        (Exec rt b ctx history).1 = (rt.exec ctx b.runner b history).1
        ∧ Load rt b ctx value history
            = ((rt.query ctx b.runner b value history).1,
                (rt.query ctx b.runner b value history).2.2))
    ∧ (∀ buf : Buffer, Build env b ⟨[]⟩ = (buf, none) →
        (Exec (packageRuntime env d) b ctx history).1
            = history ++ [RunnerCall.ExecContext ctx b.runner buf.text buf.binds]
        ∧ (∀ err, (d.ExecContext history ctx b.runner buf.text buf.binds).2 = some err →
            (Exec (packageRuntime env d) b ctx history).2 = (0, some err))
        ∧ ((d.ExecContext history ctx b.runner buf.text buf.binds).2 = none →
            (Exec (packageRuntime env d) b ctx history).2
              = ((d.ExecContext history ctx b.runner buf.text buf.binds).1.RowsAffected, none))
        ∧ (Load (packageRuntime env d) b ctx value history).1
            = history ++ [RunnerCall.QueryScan ctx b.runner buf.text buf.binds value]
        ∧ (Load (packageRuntime env d) b ctx value history).2
            = (d.QueryScan history ctx b.runner buf.text buf.binds value).2) := by
  constructor
  · intro rt
    refine ⟨?_, rfl⟩
    unfold Exec
    cases h : (rt.exec ctx b.runner b history).2.2 <;> simp [h]
  · intro buf hbuf
    have hexec : (packageRuntime env d).exec ctx b.runner b history
        = (history ++ [RunnerCall.ExecContext ctx b.runner buf.text buf.binds],
            d.ExecContext history ctx b.runner buf.text buf.binds) := by
      simp only [packageRuntime, hbuf]
    have hquery : (packageRuntime env d).query ctx b.runner b value history
        = (history ++ [RunnerCall.QueryScan ctx b.runner buf.text buf.binds value],
            d.QueryScan history ctx b.runner buf.text buf.binds value) := by
      simp only [packageRuntime, hbuf]
    refine ⟨?_, ?_, ?_, ?_, ?_⟩
    · unfold Exec
      rw [hexec]
      cases h : (d.ExecContext history ctx b.runner buf.text buf.binds).2 <;> simp [h]
    · intro err h
      unfold Exec
      rw [hexec]
      simp [h]
    · intro h
      unfold Exec
      rw [hexec]
      simp [h]
    · unfold Load
      rw [hquery]
    · unfold Load
      rw [hquery]

/-- Witness for C17: the example builder on a runner whose first execution
fails and whose second would succeed: `Exec` submits once and returns the
runner's error. -/
theorem Exec_Load_passthrough_witness :
    Build exampleEnv usersBuilder ⟨[]⟩
        = (⟨[BufCall.WriteString "INSERT INTO ", BufCall.WriteString "\"users\"",
              BufCall.WriteString " (", BufCall.WriteString "\"name\"",
              BufCall.WriteString ",", BufCall.WriteString "\"age\"",
              BufCall.WriteString ")", BufCall.WriteString " VALUES ",
              BufCall.WriteString "(?,?)",
              BufCall.WriteValue [GoValue.str "Alice", GoValue.int 30]]⟩, none)
    ∧ (flakyDriver.ExecContext [] ⟨0⟩ usersBuilder.runner
          "INSERT INTO \"users\" (\"name\",\"age\") VALUES (?,?)"
          [GoValue.str "Alice", GoValue.int 30]).2
        = some (Error.other "connection refused")
    ∧ (Exec (packageRuntime exampleEnv flakyDriver) usersBuilder ⟨0⟩ []).1
        = [] ++ [RunnerCall.ExecContext ⟨0⟩ usersBuilder.runner
            "INSERT INTO \"users\" (\"name\",\"age\") VALUES (?,?)"
            [GoValue.str "Alice", GoValue.int 30]]
    ∧ (Exec (packageRuntime exampleEnv flakyDriver) usersBuilder ⟨0⟩ []).2
        = (0, some (Error.other "connection refused")) :=
  ⟨rfl, rfl,
    ((Exec_Load_passthrough exampleEnv flakyDriver usersBuilder ⟨0⟩ GoValue.nil []).2
      _ rfl).1,
    ((Exec_Load_passthrough exampleEnv flakyDriver usersBuilder ⟨0⟩ GoValue.nil []).2
      _ rfl).2.1 _ rfl⟩

/-! ## Rendering without arity validation -/

theorem countChar_append (c : Char) (a b : String) :
    countChar c (a ++ b) = countChar c a + countChar c b := by
  simp [countChar, String.data_append, List.count_append]

theorem countChar_intercalate_go (c : Char) (sep g : String) (k : Nat) (acc : String) :
    countChar c (String.intercalate.go acc sep (List.replicate k g))
      = countChar c acc + k * (countChar c sep + countChar c g) := by
  induction k generalizing acc with
  | zero => simp [String.intercalate.go]
  | succ k ih =>
    rw [List.replicate_succ, String.intercalate.go, ih, countChar_append, countChar_append]
    ring

theorem countChar_intercalate_replicate (c : Char) (sep g : String) (k : Nat)
    (hsep : countChar c sep = 0) :
    countChar c (String.intercalate sep (List.replicate k g)) = k * countChar c g := by
  cases k with
  | zero => simp [String.intercalate, countChar]
  | succ k =>
    rw [List.replicate_succ, String.intercalate, countChar_intercalate_go, hsep]
    ring

theorem countChar_placeholderGroup (n : Nat) : countChar '?' (placeholderGroup n) = n := by
  unfold placeholderGroup
  rw [countChar_append, countChar_append,
    countChar_intercalate_replicate '?' "," "?" n (by decide)]
  have h1 : countChar '?' "(" = 0 := by decide
  have h2 : countChar '?' ")" = 0 := by decide
  have h3 : countChar '?' "?" = 1 := by decide
  rw [h1, h2, h3]
  ring

/-- C18: `Build` makes no arity check and needs no tuple: in structured mode
with a non-empty table and `n` columns (`n` at least one) it returns `nil`
whatever the tuples are; the text of the VALUES part, which stands between the
header and the RETURNING clause, holds `n` placeholders for each tuple, while
the values registered are those of the tuples, as many as the tuple lengths
add up to, so the two numbers agree exactly when `n` times the number of tuples
is the sum of the tuple lengths; with no tuple the text ends with ` VALUES `,
followed only by the RETURNING clause if there is one, and no value is
registered. -/
theorem Build_no_arity_check (env : Env) (b : InsertBuilder) (buf : Buffer)
    (hraw : b.raw.Query = "") (ht : b.Table ≠ "") (hc : b.Column ≠ []) :
    (Build env b buf).2 = none
    ∧ (Build env b buf).1.text
        = buf.text ++ ((if b.Ignored then "INSERT IGNORE INTO " else "INSERT INTO ")
            ++ (env.QuoteIdent b.Table ++ " ("
              ++ String.intercalate "," (b.Column.map env.QuoteIdent) ++ ") VALUES "
              ++ String.intercalate ", "
                  (List.replicate b.Value.length (placeholderGroup b.Column.length))
              ++ textOf (returningCalls env b.ReturnColumn)))
    ∧ countChar '?' (String.intercalate ", "
          (List.replicate b.Value.length (placeholderGroup b.Column.length)))
        = b.Column.length * b.Value.length
    ∧ (∀ tuple ∈ b.Value, countChar '?' (placeholderGroup b.Column.length) = b.Column.length)
    ∧ valueCallsOf (Build env b buf).1.log = valueCallsOf buf.log ++ b.Value
    ∧ (Build env b buf).1.binds = buf.binds ++ b.Value.flatten
    ∧ b.Value.flatten.length = (b.Value.map List.length).sum
    ∧ (countChar '?' (String.intercalate ", "
            (List.replicate b.Value.length (placeholderGroup b.Column.length)))
          = b.Value.flatten.length
        ↔ b.Column.length * b.Value.length = (b.Value.map List.length).sum)
    ∧ (b.Value = [] →
        (Build env b buf).1.text
          = buf.text ++ ((if b.Ignored then "INSERT IGNORE INTO " else "INSERT INTO ")
              ++ (env.QuoteIdent b.Table ++ " ("
                ++ String.intercalate "," (b.Column.map env.QuoteIdent) ++ ") VALUES "
                ++ textOf (returningCalls env b.ReturnColumn)))
        ∧ (Build env b buf).1.binds = buf.binds) := by
  have hcount : countChar '?' (String.intercalate ", "
        (List.replicate b.Value.length (placeholderGroup b.Column.length)))
      = b.Column.length * b.Value.length := by
    rw [countChar_intercalate_replicate '?' ", " _ _ (by decide), countChar_placeholderGroup,
      Nat.mul_comm]
  have hbinds : (Build env b buf).1.binds = buf.binds ++ b.Value.flatten := by
    simp only [Buffer.binds, valuesOf_eq_flatten]
    rw [Build_valueCalls env b buf hraw ht hc]
    simp
  refine ⟨?_, Build_text env b buf hraw ht hc, hcount,
    fun _ _ => countChar_placeholderGroup _, Build_valueCalls env b buf hraw ht hc, hbinds,
    List.length_flatten _, ?_, ?_⟩
  · rw [Build_log env b buf hraw ht hc]
  · rw [hcount, List.length_flatten]
  · intro hv
    refine ⟨?_, ?_⟩
    · rw [Build_text env b buf hraw ht hc, hv]
      simp [String.intercalate, String.append_empty]
    · rw [hbinds, hv]
      simp

/-- Witness for C18: two columns and one tuple of a single value. -/
theorem Build_no_arity_check_witness :
    (Values (Columns (InsertInto ⟨0⟩ "users") ["name", "age"]) [GoValue.int 1]).raw.Query = ""
    ∧ (Values (Columns (InsertInto ⟨0⟩ "users") ["name", "age"]) [GoValue.int 1]).Table ≠ ""
    ∧ (Values (Columns (InsertInto ⟨0⟩ "users") ["name", "age"]) [GoValue.int 1]).Column ≠ []
    ∧ (Build exampleEnv
        (Values (Columns (InsertInto ⟨0⟩ "users") ["name", "age"]) [GoValue.int 1]) ⟨[]⟩).2
        = none :=
  ⟨rfl, by decide, by decide,
    (Build_no_arity_check exampleEnv
      (Values (Columns (InsertInto ⟨0⟩ "users") ["name", "age"]) [GoValue.int 1]) ⟨[]⟩
      rfl (by decide) (by decide)).1⟩

/-! ## Sequences of `Pair` calls -/

theorem Pair_one (b : InsertBuilder) (c : String) (v : GoValue) (t : List GoValue)
    (hv : b.Value = [t]) :
    Pair b c v = Outcome.ok { b with Column := b.Column ++ [c], Value := [t ++ [v]] } := by
  simp [Pair, hv]

theorem pairAll_one (ps : List (String × GoValue)) (b : InsertBuilder) (t : List GoValue)
    (hv : b.Value = [t]) :
    pairAll b ps
      = Outcome.ok { b with Column := b.Column ++ ps.map Prod.fst,
                            Value := [t ++ ps.map Prod.snd] } := by
  induction ps generalizing b t with
  | nil =>
    cases b
    simp only [pairAll, List.map_nil, List.append_nil] at hv ⊢
    rw [hv]
  | cons p rest ih =>
    rw [pairAll, Pair_one b p.1 p.2 t hv]
    simp only
    rw [ih _ (t ++ [p.2]) rfl]
    simp

theorem pairAll_InsertInto (db : runner) (t : String) (ps : List (String × GoValue))
    (hps : ps ≠ []) :
    pairAll (InsertInto db t) ps
      = Outcome.ok
          { InsertInto db t with Column := ps.map Prod.fst, Value := [ps.map Prod.snd] } := by
  obtain ⟨p, rest, rfl⟩ := List.exists_cons_of_ne_nil hps
  have h0 : Pair (InsertInto db t) p.1 p.2
      = Outcome.ok { InsertInto db t with Column := [p.1], Value := [[p.2]] } := by
    simp [Pair, InsertInto, Values]
  rw [pairAll, h0]
  simp only
  rw [pairAll_one rest _ [p.2] rfl]
  simp

/-- C19: from `InsertInto(t)`, for every non-empty sequence of calls
`Pair(c1, v1)`, ..., `Pair(cn, vn)`, no call panics (nor does any shorter
sequence of them), the column list is `[c1, ..., cn]` and the value list is the
single tuple `[v1, ..., vn]`; so for a non-empty `t`, `Build` succeeds, writes
one placeholder group of `n` placeholders after ` VALUES ` and registers the
values `v1, ..., vn` in that order in one call. -/
theorem Pair_sequence (env : Env) (db : runner) (t : String) (ps : List (String × GoValue))
    (buf : Buffer) (hps : ps ≠ []) :
    (∀ k : Nat, ∃ b', pairAll (InsertInto db t) (ps.take k) = Outcome.ok b')
    ∧ ∃ b', pairAll (InsertInto db t) ps = Outcome.ok b'
      ∧ b'.Column = ps.map Prod.fst
      ∧ b'.Value = [ps.map Prod.snd]
      ∧ (t ≠ "" →
          (Build env b' buf).2 = none
          ∧ (Build env b' buf).1.text
              = buf.text ++ ("INSERT INTO " ++ (env.QuoteIdent t ++ " ("
                  ++ String.intercalate "," ((ps.map Prod.fst).map env.QuoteIdent)
                  ++ ") VALUES " ++ placeholderGroup ps.length))
          ∧ countChar '?' (placeholderGroup ps.length) = ps.length
          ∧ valueCallsOf (Build env b' buf).1.log = valueCallsOf buf.log ++ [ps.map Prod.snd]
          ∧ (Build env b' buf).1.binds = buf.binds ++ ps.map Prod.snd) := by
  refine ⟨?_, _, pairAll_InsertInto db t ps hps, rfl, rfl, ?_⟩
  · intro k
    by_cases hk : ps.take k = []
    · exact ⟨_, by rw [hk]; rfl⟩
    · exact ⟨_, pairAll_InsertInto db t _ hk⟩
  · intro ht
    have hc : (ps.map Prod.fst) ≠ [] := by
      intro h
      exact hps (List.map_eq_nil_iff.mp h)
    have hlog := Build_log env
      { InsertInto db t with Column := ps.map Prod.fst, Value := [ps.map Prod.snd] } buf
      rfl ht hc
    have htext := Build_text env
      { InsertInto db t with Column := ps.map Prod.fst, Value := [ps.map Prod.snd] } buf
      rfl ht hc
    have hcalls := Build_valueCalls env
      { InsertInto db t with Column := ps.map Prod.fst, Value := [ps.map Prod.snd] } buf
      rfl ht hc
    refine ⟨by rw [hlog], ?_, countChar_placeholderGroup _, hcalls, ?_⟩
    · rw [htext]
      simp [InsertInto, returningCalls, textOf, String.intercalate, String.intercalate.go]
    · simp only [Buffer.binds, valuesOf_eq_flatten]
      rw [hcalls]
      simp

/-- Witness for C19: two `Pair` calls on `InsertInto("users")`. -/
theorem Pair_sequence_witness :
    [("name", GoValue.str "Alice"), ("age", GoValue.int 30)] ≠ []
    ∧ ∃ b', pairAll (InsertInto ⟨0⟩ "users")
          [("name", GoValue.str "Alice"), ("age", GoValue.int 30)] = Outcome.ok b'
      ∧ b'.Column = ["name", "age"]
      ∧ b'.Value = [[GoValue.str "Alice", GoValue.int 30]] :=
  ⟨by simp,
    let h := (Pair_sequence exampleEnv ⟨0⟩ "users"
      [("name", GoValue.str "Alice"), ("age", GoValue.int 30)] ⟨[]⟩ (by simp)).2
    ⟨h.choose, h.choose_spec.1, h.choose_spec.2.1, h.choose_spec.2.2.1⟩⟩

/-! ## `Record` on a structure -/

theorem derivedColumns_nil_left (vfields : List (StructField × GoValue)) :
    derivedColumns [] vfields = [] := by
  simp [derivedColumns]

theorem derivedColumns_cons (tag : String) (tags : List String) (x : StructField × GoValue)
    (rest : List (StructField × GoValue)) :
    derivedColumns (tag :: tags) (x :: rest)
      = (if tag ≠ "" ∧ ¬ (tag = "id" ∧ x.2.IsZero = true) then [tag] else [])
        ++ derivedColumns tags rest := by
  unfold derivedColumns
  by_cases h1 : tag = "" <;> by_cases h2 : tag = "id" <;> by_cases h3 : x.2.IsZero = true <;>
    simp [List.filter_cons, h1, h2, h3]

theorem recordColumns_eq (vfields : List (StructField × GoValue)) (tags : List String)
    (i : Nat) (cols : List String) (hlen : i + tags.length ≤ vfields.length) :
    recordColumns vfields i tags cols
      = Except.ok (cols ++ derivedColumns tags (vfields.drop i)) := by
  induction tags generalizing i cols with
  | nil => simp [recordColumns, derivedColumns_nil_left]
  | cons tag tags ih =>
    have hi : i < vfields.length := by
      simp only [List.length_cons] at hlen
      omega
    have hlen' : (i + 1) + tags.length ≤ vfields.length := by
      simp only [List.length_cons] at hlen
      omega
    rw [List.drop_eq_getElem_cons hi, derivedColumns_cons]
    unfold recordColumns
    rw [List.getElem?_eq_getElem hi]
    by_cases h2 : tag = "id"
    · by_cases h3 : (vfields[i]).2.IsZero = true
      · simp [h2, h3, ih (i + 1) cols hlen']
      · have h1 : ¬ ("id" : String) = "" := by decide
        simp [h2, h3, h1, ih (i + 1) _ hlen']
    · by_cases h1 : tag = ""
      · simp [h1, h2, ih (i + 1) cols hlen']
      · simp [h1, h2, ih (i + 1) _ hlen']

theorem newTagStore_get (fields : List StructField) :
    newTagStore.get fields = fields.map columnName := rfl

theorem findValueByName_replicate (vfields : List (StructField × GoValue))
    (names : List String) :
    newTagStore.findValueByName (GoValue.struct vfields) names
        (List.replicate names.length none) false
      = names.map (fun c => lookupField c (newTagStore.get (vfields.map Prod.fst)) vfields) := by
  apply List.ext_getElem?
  intro n
  simp only [newTagStore, List.getElem?_map, List.getElem?_enum, List.getElem?_replicate]
  by_cases hn : n < names.length
  · simp [hn, List.getElem?_eq_getElem hn]
  · simp [hn, List.getElem?_eq_none (Nat.le_of_not_lt hn)]

theorem recordInterface_map (vfields : List (StructField × GoValue)) (cols : List String) :
    recordInterface
        (cols.map (fun c => lookupField c (newTagStore.get (vfields.map Prod.fst)) vfields))
      = cols.map (fieldValueByName vfields) := by
  induction cols with
  | nil => rfl
  | cons c cols ih =>
    simp only [List.map_cons, fieldValueByName]
    cases h : lookupField c (newTagStore.get (vfields.map Prod.fst)) vfields <;>
      simp [recordInterface, h, ih]

/-- The tuple that `Record` appends with `newTagStore`, for the column list
`cols`. -/
theorem recordTuple_eq (vfields : List (StructField × GoValue)) (cols : List String) :
    recordInterface
        ((newTagStore.findValueByName (GoValue.struct vfields) (cols ++ ["id"])
            (List.replicate (cols.length + 1) none) false).take
          ((newTagStore.findValueByName (GoValue.struct vfields) (cols ++ ["id"])
            (List.replicate (cols.length + 1) none) false).length - 1))
      = cols.map (fieldValueByName vfields) := by
  have hlen : cols.length + 1 = (cols ++ ["id"]).length := by simp
  rw [hlen, findValueByName_replicate]
  simp only [List.length_map, List.length_append, List.length_singleton, Nat.add_sub_cancel,
    List.map_append]
  rw [List.take_left' (by simp), recordInterface_map]

/-- `Record` with `newTagStore` on a value that indirects to a structure. -/
theorem Record_newTagStore (b : InsertBuilder) (record : GoValue)
    (vfields : List (StructField × GoValue))
    (hrec : reflectIndirect (reflectValueOf record) = some (GoValue.struct vfields)) :
    Record newTagStore b record
      = Outcome.ok
          { b with
            Column :=
              if b.Column = [] then
                derivedColumns ((vfields.map Prod.fst).map columnName) vfields
              else b.Column
            Value := b.Value ++
              [(if b.Column = [] then
                  derivedColumns ((vfields.map Prod.fst).map columnName) vfields
                else b.Column).map (fieldValueByName vfields)] } := by
  unfold Record
  rw [hrec]
  by_cases hc : b.Column = []
  · have hrc := recordColumns_eq vfields ((vfields.map Prod.fst).map columnName) 0 []
      (by simp)
    simp only [List.drop_zero, List.nil_append] at hrc
    simp only [hc, List.length_nil, if_true, newTagStore_get, hrc, Values, recordTuple_eq]
  · have h0 : ¬ b.Column.length = 0 := fun h => hc (List.length_eq_zero.mp h)
    simp only [h0, if_false, hc, Values, recordTuple_eq]

theorem lookupField_eq_none (c : String) (vfields : List (StructField × GoValue))
    (hno : ∀ p ∈ vfields, columnName p.1 ≠ c) :
    lookupField c ((vfields.map Prod.fst).map columnName) vfields = none := by
  induction vfields with
  | nil => rfl
  | cons x rest ih =>
    have hx : columnName x.1 ≠ c := hno x (List.mem_cons_self _ _)
    have hrest : ∀ p ∈ rest, columnName p.1 ≠ c := fun p hp => hno p (List.mem_cons_of_mem _ hp)
    obtain ⟨f, v⟩ := x
    simp only [List.map_cons, lookupField]
    rw [if_neg (fun h => hx h.2)]
    exact ih hrest

theorem lookupField_some_mem (c : String) (v : GoValue)
    (vfields : List (StructField × GoValue))
    (h : lookupField c ((vfields.map Prod.fst).map columnName) vfields = some v) :
    ∃ p ∈ vfields, columnName p.1 = c ∧ p.2 = v := by
  induction vfields with
  | nil => simp [lookupField] at h
  | cons x rest ih =>
    obtain ⟨f, w⟩ := x
    simp only [List.map_cons, lookupField] at h
    by_cases hx : columnName f ≠ "" ∧ columnName f = c
    · rw [if_pos hx] at h
      exact ⟨(f, w), List.mem_cons_self _ _, hx.2, Option.some.inj h⟩
    · rw [if_neg hx] at h
      obtain ⟨p, hp, hpc, hpv⟩ := ih h
      exact ⟨p, List.mem_cons_of_mem _ hp, hpc, hpv⟩

theorem derivedColumns_map_cons (x : StructField × GoValue)
    (rest : List (StructField × GoValue)) :
    derivedColumns (((x :: rest).map Prod.fst).map columnName) (x :: rest)
      = (if columnName x.1 ≠ "" ∧ ¬ (columnName x.1 = "id" ∧ x.2.IsZero = true)
          then [columnName x.1] else [])
        ++ derivedColumns ((rest.map Prod.fst).map columnName) rest := by
  simp only [List.map_cons, derivedColumns_cons]

theorem id_not_mem_derivedColumns (vfields : List (StructField × GoValue))
    (hz : ∀ p ∈ vfields, columnName p.1 = "id" → p.2.IsZero = true) :
    "id" ∉ derivedColumns ((vfields.map Prod.fst).map columnName) vfields := by
  induction vfields with
  | nil => simp [derivedColumns]
  | cons x rest ih =>
    rw [derivedColumns_map_cons]
    have hrest := ih (fun p hp => hz p (List.mem_cons_of_mem _ hp))
    have hx := hz x (List.mem_cons_self _ _)
    intro hmem
    rcases List.mem_append.mp hmem with h | h
    · split at h
      · rename_i hcond
        have hid : columnName x.1 = "id" := (List.mem_singleton.mp h).symm
        exact hcond.2 ⟨hid, hx hid⟩
      · simp at h
    · exact hrest h

theorem id_mem_derivedColumns (vfields : List (StructField × GoValue))
    (hnz : ∃ p ∈ vfields, columnName p.1 = "id" ∧ p.2.IsZero = false) :
    "id" ∈ derivedColumns ((vfields.map Prod.fst).map columnName) vfields := by
  induction vfields with
  | nil => simp at hnz
  | cons x rest ih =>
    rw [derivedColumns_map_cons]
    obtain ⟨p, hp, hid, hzero⟩ := hnz
    rcases List.mem_cons.mp hp with rfl | hp'
    · apply List.mem_append_left
      have hne : ("id" : String) ≠ "" := by decide
      simp [hid, hzero, hne]
    · exact List.mem_append_right _ (ih ⟨p, hp', hid, hzero⟩)

theorem derivedColumns_newTagStore (vfields : List (StructField × GoValue)) :
    derivedColumns ((vfields.map Prod.fst).map columnName) vfields
      = (vfields.filter
          (fun p => decide (p.1.PkgPath = "") && decide (p.1.Tag ≠ "")
            && !(decide (p.1.Tag = "id") && p.2.IsZero))).map (fun p => p.1.Tag) := by
  induction vfields with
  | nil => simp [derivedColumns]
  | cons x rest ih =>
    rw [derivedColumns_map_cons, ih]
    obtain ⟨f, v⟩ := x
    by_cases h1 : f.PkgPath = "" <;> by_cases h2 : f.Tag = "" <;>
      by_cases h3 : f.Tag = "id" <;> by_cases h4 : v.IsZero = true <;>
      simp [columnName, List.filter_cons, h1, h2, h3, h4]

/-- C12: on a structure, for every tag store that gives at most one name per
field, `Record` returns normally; when the builder's column list is empty it
becomes the names of the fields in declared order, without the empty names and
without `id` on a field whose value is zero (a non-zero `id` field keeps its
column); when the column list is not empty it is left as it is. With
`newTagStore`, where a field that is not exported or has no name tag has the
empty name, the column list of a builder without columns becomes the name tags
of the exported, tagged fields in declared order, without `id` on a zero
field. -/
theorem Record_columns (s : tagStore) (b : InsertBuilder) (record : GoValue)
    (vfields : List (StructField × GoValue))
    (hrec : reflectIndirect (reflectValueOf record) = some (GoValue.struct vfields))
    (hget : (s.get (vfields.map Prod.fst)).length ≤ vfields.length) :
    (∃ b', Record s b record = Outcome.ok b'
      ∧ (b.Column = [] →
          b'.Column
            = (((s.get (vfields.map Prod.fst)).zip vfields).filter
                (fun p => decide (p.1 ≠ "") && !(decide (p.1 = "id") && p.2.2.IsZero))).map
                Prod.fst)
      ∧ (b.Column ≠ [] → b'.Column = b.Column))
    ∧ (∃ b', Record newTagStore b record = Outcome.ok b'
      ∧ (b.Column = [] →
          b'.Column
            = (vfields.filter
                (fun p => decide (p.1.PkgPath = "") && decide (p.1.Tag ≠ "")
                  && !(decide (p.1.Tag = "id") && p.2.IsZero))).map (fun p => p.1.Tag))
      ∧ (b.Column ≠ [] → b'.Column = b.Column)) := by
  constructor
  · unfold Record
    rw [hrec]
    by_cases hc : b.Column = []
    · have hrc := recordColumns_eq vfields (s.get (vfields.map Prod.fst)) 0 []
        (by simpa using hget)
      simp only [List.drop_zero, List.nil_append] at hrc
      simp only [hc, List.length_nil, if_true, hrc]
      exact ⟨_, rfl, fun _ => rfl, fun h => absurd rfl h⟩
    · have h0 : ¬ b.Column.length = 0 := fun h => hc (List.length_eq_zero.mp h)
      simp only [h0, if_false]
      exact ⟨_, rfl, fun h => absurd h hc, fun _ => rfl⟩
  · refine ⟨_, Record_newTagStore b record vfields hrec, ?_, ?_⟩
    · intro hc
      simp only [hc, if_true]
      exact derivedColumns_newTagStore vfields
    · intro hc
      simp only [hc, if_false]

/-- Witness for C12: a structure with an `Id` of interface type holding 0, a
field that is not exported and a field without a tag, recorded into a builder
without columns. -/
theorem Record_columns_witness :
    reflectIndirect (reflectValueOf accountRecord)
        = some (GoValue.struct [(idField, GoValue.iface (GoValue.int 0)),
            (secretField, GoValue.str "s"), (noteField, GoValue.str "n"),
            (nameField, GoValue.str "Al")])
    ∧ (newTagStore.get
          ([(idField, GoValue.iface (GoValue.int 0)), (secretField, GoValue.str "s"),
            (noteField, GoValue.str "n"), (nameField, GoValue.str "Al")].map Prod.fst)).length
        ≤ [(idField, GoValue.iface (GoValue.int 0)), (secretField, GoValue.str "s"),
            (noteField, GoValue.str "n"), (nameField, GoValue.str "Al")].length
    ∧ ∃ b', Record newTagStore (InsertInto ⟨0⟩ "users") accountRecord = Outcome.ok b'
        ∧ ((InsertInto ⟨0⟩ "users").Column = [] → b'.Column = ["id", "name"]) :=
  ⟨rfl, by decide,
    let h := (Record_columns newTagStore (InsertInto ⟨0⟩ "users") accountRecord
      [(idField, GoValue.iface (GoValue.int 0)), (secretField, GoValue.str "s"),
        (noteField, GoValue.str "n"), (nameField, GoValue.str "Al")] rfl (by decide)).2
    ⟨h.choose, h.choose_spec.1, fun hc => (h.choose_spec.2.1 hc).trans (by decide)⟩⟩

/-- Counterexample to C11 as stated: with the columns `id` and `name` set by
`Columns`, `Record` on a structure whose `Id` is zero keeps the column `id`
(with every tag store) and puts the zero value in the tuple; and with only the
column `name` set, a non-zero `Id` is not included. -/
theorem Record_id_explicit_columns_counterexample :
    (GoValue.int 0).IsZero = true
    ∧ (∀ s : tagStore, ∃ b',
        Record s (Columns (InsertInto ⟨0⟩ "users") ["id", "name"]) (personRecord 0)
          = Outcome.ok b' ∧ "id" ∈ b'.Column)
    ∧ Record newTagStore (Columns (InsertInto ⟨0⟩ "users") ["id", "name"]) (personRecord 0)
        = Outcome.ok { InsertInto ⟨0⟩ "users" with
            Column := ["id", "name"]
            Value := [[GoValue.int 0, GoValue.str "Al"]] }
    ∧ (GoValue.int 7).IsZero = false
    ∧ Record newTagStore (Columns (InsertInto ⟨0⟩ "users") ["name"]) (personRecord 7)
        = Outcome.ok { InsertInto ⟨0⟩ "users" with
            Column := ["name"]
            Value := [[GoValue.str "Al"]] } := by
  refine ⟨rfl, ?_, rfl, rfl, rfl⟩
  intro s
  exact ⟨_, rfl, by simp [Columns, Values]⟩

/-- C11, amended: for a builder whose column list is empty, `Record` with
`newTagStore` on a structure returns normally and appends the tuple of the
values found for the resulting columns; when every field mapped to `id` holds
the zero value of its type (the nil interface, for a field of interface type),
`id` is not among the columns (so the tuple has no entry for it, and the
rendered statement neither names the column nor binds the value); when the
field mapped to `id` holds a non-zero value `v`, `id` is among the columns and
the tuple holds `v`, as an `interface{}`, wherever the column is `id`. -/
theorem Record_id_column (env : Env) (b : InsertBuilder) (record : GoValue)
    (vfields : List (StructField × GoValue)) (buf : Buffer)
    (hrec : reflectIndirect (reflectValueOf record) = some (GoValue.struct vfields))
    (hcol : b.Column = []) :
    ∃ (b' : InsertBuilder) (t : List GoValue), Record newTagStore b record = Outcome.ok b'
      ∧ b'.Value = b.Value ++ [t]
      ∧ t = b'.Column.map (fieldValueByName vfields)
      ∧ ((∀ p ∈ vfields, columnName p.1 = "id" → p.2.IsZero = true) → "id" ∉ b'.Column)
      ∧ (∀ v, lookupField "id" ((vfields.map Prod.fst).map columnName) vfields = some v →
          v.IsZero = false →
          "id" ∈ b'.Column ∧ ∀ i : Nat, b'.Column[i]? = some "id" → t[i]? = some v.Interface)
      ∧ (b.raw.Query = "" → b.Table ≠ "" → b'.Column ≠ [] →
          (Build env b' buf).2 = none
          ∧ (Build env b' buf).1.text
              = buf.text ++ ((if b.Ignored then "INSERT IGNORE INTO " else "INSERT INTO ")
                  ++ (env.QuoteIdent b.Table ++ " ("
                    ++ String.intercalate "," (b'.Column.map env.QuoteIdent) ++ ") VALUES "
                    ++ String.intercalate ", "
                        (List.replicate (b.Value.length + 1) (placeholderGroup b'.Column.length))
                    ++ textOf (returningCalls env b.ReturnColumn)))
          ∧ valueCallsOf (Build env b' buf).1.log = valueCallsOf buf.log ++ (b.Value ++ [t])) := by
  have hR : Record newTagStore b record
      = Outcome.ok
          { b with
            Column := derivedColumns ((vfields.map Prod.fst).map columnName) vfields
            Value := b.Value ++
              [(derivedColumns ((vfields.map Prod.fst).map columnName) vfields).map
                (fieldValueByName vfields)] } := by
    rw [Record_newTagStore b record vfields hrec]
    simp [hcol]
  obtain ⟨b', hb'⟩ : ∃ b' : InsertBuilder, b' =
      { b with
        Column := derivedColumns ((vfields.map Prod.fst).map columnName) vfields
        Value := b.Value ++
          [(derivedColumns ((vfields.map Prod.fst).map columnName) vfields).map
            (fieldValueByName vfields)] } := ⟨_, rfl⟩
  rw [← hb'] at hR
  have hCol : b'.Column = derivedColumns ((vfields.map Prod.fst).map columnName) vfields := by
    rw [hb']
  have hVal : b'.Value = b.Value ++ [b'.Column.map (fieldValueByName vfields)] := by
    rw [hb']
  have hRaw : b'.raw = b.raw := by rw [hb']
  have hTab : b'.Table = b.Table := by rw [hb']
  have hIgn : b'.Ignored = b.Ignored := by rw [hb']
  have hRet : b'.ReturnColumn = b.ReturnColumn := by rw [hb']
  refine ⟨b', b'.Column.map (fieldValueByName vfields), hR, hVal, rfl, ?_, ?_, ?_⟩
  · intro hz
    rw [hCol]
    exact id_not_mem_derivedColumns vfields hz
  · intro v hv hnz
    constructor
    · rw [hCol]
      apply id_mem_derivedColumns
      have hex := lookupField_some_mem "id" v vfields hv
      obtain ⟨p, hp, hid, hpv⟩ := hex
      exact ⟨p, hp, hid, by rw [hpv]; exact hnz⟩
    · intro i hi
      simp only [List.getElem?_map, hi, Option.map_some', fieldValueByName, newTagStore_get, hv]
  · intro hraw ht hc'
    have hraw' : b'.raw.Query = "" := by rw [hRaw]; exact hraw
    have ht' : b'.Table ≠ "" := by rw [hTab]; exact ht
    refine ⟨?_, ?_, ?_⟩
    · rw [Build_log env b' buf hraw' ht' hc']
    · rw [Build_text env b' buf hraw' ht' hc', hIgn, hTab, hRet, hVal]
      simp
    · rw [Build_valueCalls env b' buf hraw' ht' hc', hVal]

/-- Witness for C11, amended: a structure whose `Id`, of interface type, holds
the integer 0 (not the zero value of its type, which is the nil interface),
recorded into a builder without columns: the column `id` and the value 0 are
included. -/
theorem Record_id_column_witness :
    reflectIndirect (reflectValueOf accountRecord)
        = some (GoValue.struct [(idField, GoValue.iface (GoValue.int 0)),
            (secretField, GoValue.str "s"), (noteField, GoValue.str "n"),
            (nameField, GoValue.str "Al")])
    ∧ (InsertInto ⟨0⟩ "users").Column = []
    ∧ (GoValue.iface (GoValue.int 0)).IsZero = false
    ∧ ∃ (b' : InsertBuilder) (t : List GoValue),
        Record newTagStore (InsertInto ⟨0⟩ "users") accountRecord = Outcome.ok b'
        ∧ b'.Value = (InsertInto ⟨0⟩ "users").Value ++ [t]
        ∧ "id" ∈ b'.Column
        ∧ ∀ i : Nat, b'.Column[i]? = some "id" → t[i]? = some (GoValue.int 0) :=
  ⟨rfl, rfl, rfl,
    let h := Record_id_column exampleEnv (InsertInto ⟨0⟩ "users") accountRecord
      [(idField, GoValue.iface (GoValue.int 0)), (secretField, GoValue.str "s"),
        (noteField, GoValue.str "n"), (nameField, GoValue.str "Al")] ⟨[]⟩ rfl rfl
    ⟨h.choose, h.choose_spec.choose, h.choose_spec.choose_spec.1,
      h.choose_spec.choose_spec.2.1,
      (h.choose_spec.choose_spec.2.2.2.2.1 (GoValue.iface (GoValue.int 0)) rfl rfl).1,
      (h.choose_spec.choose_spec.2.2.2.2.1 (GoValue.iface (GoValue.int 0)) rfl rfl).2⟩⟩

/-- Counterexample to C13 as stated: with the columns `name` and `nick` set by
`Columns`, `Record` on a structure that has no field named `nick` appends a
tuple whose second value is `nil`, which is no field value of the structure for
that column. -/
theorem Record_tuple_counterexample :
    Record newTagStore (Columns (InsertInto ⟨0⟩ "users") ["name", "nick"]) (personRecord 7)
        = Outcome.ok { InsertInto ⟨0⟩ "users" with
            Column := ["name", "nick"]
            Value := [[GoValue.str "Al", GoValue.nil]] }
    ∧ (∀ p ∈ [(idField, GoValue.int 7), (nameField, GoValue.str "Al")],
        columnName p.1 ≠ "nick" ∧ p.2 ≠ GoValue.nil) := by
  refine ⟨rfl, ?_⟩
  intro p hp
  simp only [List.mem_cons, List.mem_singleton, List.not_mem_nil, or_false] at hp
  rcases hp with rfl | rfl
  · exact ⟨by decide, fun h => GoValue.noConfusion h⟩
  · exact ⟨by decide, fun h => GoValue.noConfusion h⟩

/-- C13, amended: `Record` with `newTagStore` on a structure returns normally
and appends exactly one tuple; its length is the length of the column list
after the call; its i-th value is the structure's field value for the i-th
column whenever the structure has a field of that name; and the column list
after the call is the one derived from the fields (for a builder without
columns) or the builder's own, so the lookup of `id` adds no column and no
value. -/
theorem Record_tuple (b : InsertBuilder) (record : GoValue)
    (vfields : List (StructField × GoValue))
    (hrec : reflectIndirect (reflectValueOf record) = some (GoValue.struct vfields)) :
    ∃ (b' : InsertBuilder) (t : List GoValue), Record newTagStore b record = Outcome.ok b'
      ∧ b'.Value = b.Value ++ [t]
      ∧ b'.Value.length = b.Value.length + 1
      ∧ t.length = b'.Column.length
      ∧ (∀ (i : Nat) (c : String) (v : GoValue), b'.Column[i]? = some c →
          lookupField c ((vfields.map Prod.fst).map columnName) vfields = some v →
          t[i]? = some v.Interface)
      ∧ b'.Column
          = (if b.Column = [] then derivedColumns ((vfields.map Prod.fst).map columnName) vfields
             else b.Column) := by
  refine ⟨_, _, Record_newTagStore b record vfields hrec, rfl, by simp, by simp, ?_, rfl⟩
  intro i c v hi hv
  simp only at hi
  simp only [List.getElem?_map, hi, Option.map_some', fieldValueByName, newTagStore_get, hv]

/-- Witness for C13, amended: a structure recorded into a builder whose
columns were set. -/
theorem Record_tuple_witness :
    reflectIndirect (reflectValueOf (personRecord 7))
        = some (GoValue.struct [(idField, GoValue.int 7), (nameField, GoValue.str "Al")])
    ∧ ∃ (b' : InsertBuilder) (t : List GoValue),
        Record newTagStore (Columns (InsertInto ⟨0⟩ "users") ["name"]) (personRecord 7)
          = Outcome.ok b'
        ∧ b'.Value = (Columns (InsertInto ⟨0⟩ "users") ["name"]).Value ++ [t]
        ∧ b'.Value.length = (Columns (InsertInto ⟨0⟩ "users") ["name"]).Value.length + 1
        ∧ t.length = b'.Column.length :=
  ⟨rfl,
    let h := Record_tuple (Columns (InsertInto ⟨0⟩ "users") ["name"]) (personRecord 7)
      [(idField, GoValue.int 7), (nameField, GoValue.str "Al")] rfl
    ⟨h.choose, h.choose_spec.choose, h.choose_spec.choose_spec.1,
      h.choose_spec.choose_spec.2.1, h.choose_spec.choose_spec.2.2.1,
      h.choose_spec.choose_spec.2.2.2.1⟩⟩

theorem personRecord_no_email :
    ∀ p ∈ [(idField, GoValue.int 7), (nameField, GoValue.str "Al")],
      columnName p.1 ≠ "email" := by
  intro p hp
  simp only [List.mem_cons, List.mem_singleton, List.not_mem_nil, or_false] at hp
  rcases hp with rfl | rfl <;> decide

/-- Counterexample to C14 as stated: with the columns `id` and `email` set by
`Columns`, `Record` on a structure that has no field named `email` returns
normally, with no panic and no error, and appends a tuple whose value for
`email` is `nil`. -/
theorem Record_missing_field_counterexample :
    Record newTagStore (Columns (InsertInto ⟨0⟩ "users") ["id", "email"]) (personRecord 7)
        = Outcome.ok { InsertInto ⟨0⟩ "users" with
            Column := ["id", "email"]
            Value := [[GoValue.int 7, GoValue.nil]] }
    ∧ (∀ p ∈ [(idField, GoValue.int 7), (nameField, GoValue.str "Al")],
        columnName p.1 ≠ "email") :=
  ⟨rfl, personRecord_no_email⟩

/-- C14, amended: for a builder whose column list was set and contains a name
`c` that no field of the structure has, `Record` with `newTagStore` reports
nothing: it returns normally, leaves the column list as it is and appends one
tuple, of the length of the column list, whose value is `nil` wherever the
column is `c`. -/
theorem Record_missing_field (b : InsertBuilder) (record : GoValue)
    (vfields : List (StructField × GoValue)) (c : String)
    (hrec : reflectIndirect (reflectValueOf record) = some (GoValue.struct vfields))
    (hcol : b.Column ≠ []) (hc : c ∈ b.Column)
    (hno : ∀ p ∈ vfields, columnName p.1 ≠ c) :
    ∃ (b' : InsertBuilder) (t : List GoValue), Record newTagStore b record = Outcome.ok b'
      ∧ b'.Column = b.Column
      ∧ b'.Value = b.Value ++ [t]
      ∧ t.length = b.Column.length
      ∧ GoValue.nil ∈ t
      ∧ (∀ i : Nat, b.Column[i]? = some c → t[i]? = some GoValue.nil) := by
  have hnone := lookupField_eq_none c vfields hno
  have hval : fieldValueByName vfields c = GoValue.nil := by
    simp only [fieldValueByName, newTagStore_get, hnone]
  refine ⟨_, b.Column.map (fieldValueByName vfields), Record_newTagStore b record vfields hrec,
    by simp [hcol], by simp [hcol], by simp, ?_, ?_⟩
  · exact List.mem_map.mpr ⟨c, hc, hval⟩
  · intro i hi
    simp only [List.getElem?_map, hi, Option.map_some', hval]

/-- Witness for C14, amended: the column `email` on a structure with the
fields `Id` and `Name`. -/
theorem Record_missing_field_witness :
    reflectIndirect (reflectValueOf (personRecord 7))
        = some (GoValue.struct [(idField, GoValue.int 7), (nameField, GoValue.str "Al")])
    ∧ (Columns (InsertInto ⟨0⟩ "users") ["name", "email"]).Column ≠ []
    ∧ "email" ∈ (Columns (InsertInto ⟨0⟩ "users") ["name", "email"]).Column
    ∧ (∀ p ∈ [(idField, GoValue.int 7), (nameField, GoValue.str "Al")],
        columnName p.1 ≠ "email")
    ∧ ∃ (b' : InsertBuilder) (t : List GoValue),
        Record newTagStore (Columns (InsertInto ⟨0⟩ "users") ["name", "email"]) (personRecord 7)
          = Outcome.ok b'
        ∧ b'.Column = (Columns (InsertInto ⟨0⟩ "users") ["name", "email"]).Column
        ∧ b'.Value = (Columns (InsertInto ⟨0⟩ "users") ["name", "email"]).Value ++ [t]
        ∧ t.length = (Columns (InsertInto ⟨0⟩ "users") ["name", "email"]).Column.length
        ∧ GoValue.nil ∈ t :=
  ⟨rfl, by decide, by decide, personRecord_no_email,
    let h := Record_missing_field (Columns (InsertInto ⟨0⟩ "users") ["name", "email"])
      (personRecord 7) [(idField, GoValue.int 7), (nameField, GoValue.str "Al")] "email"
      rfl (by decide) (by decide) personRecord_no_email
    ⟨h.choose, h.choose_spec.choose, h.choose_spec.choose_spec.1,
      h.choose_spec.choose_spec.2.1, h.choose_spec.choose_spec.2.2.1,
      h.choose_spec.choose_spec.2.2.2.1, h.choose_spec.choose_spec.2.2.2.2.1⟩⟩

end Queryx
